import Mathlib

/-!
Verification of the PipelineRun reconciliation core (run reconciler, set
synchronizer, conflict-safe mutator, record builders) of the ks-devops
repository, via a shallow embedding of the Go source into Lean.

Go maps are modelled as association lists wrapped in `Option` so that a nil
map and an empty map stay distinguishable (this matters for the
reflect.DeepEqual comparisons in the source).  Machine time is modelled as a
natural-number clock, requeue delays in whole seconds.  Fallible calls return
`Option GoError` or `Except GoError`; a Go panic (the unchecked type
assertion in createBarePipelineRun, the nil-pointer dereference in
deleteJenkinsJobHistory) is modelled as the `none`/`panicked` outcome.
-/

namespace KsDevops

/-- Association-list representation of a Go `map[string]string`. -/
abbrev StrMap := List (String × String)

/-- Lookup in a string map: value of the first entry with the given key. -/
def mapLookup : StrMap → String → Option String
  | [], _ => none
  | kv :: rest, k => if kv.1 == k then some kv.2 else mapLookup rest k

/-- Remove every entry with the given key (Go `delete(m, k)`). -/
def mapErase : StrMap → String → StrMap
  | [], _ => []
  | kv :: rest, k => if kv.1 == k then mapErase rest k else kv :: mapErase rest k

/-- Go `m[k] = v`: replace any existing entry for `k` with the new value. -/
def mapInsert (m : StrMap) (k v : String) : StrMap :=
  mapErase m k ++ [(k, v)]

/-- Lookup in an optional (possibly nil) map; a nil map holds nothing. -/
def olookup (om : Option StrMap) (k : String) : Option String :=
  om.bind (fun m => mapLookup m k)

/-- One direction of Go `reflect.DeepEqual` on maps: every entry of `m1`
is present with the same value in `m2`. -/
def mapSub (m1 m2 : StrMap) : Bool :=
  m1.all (fun kv => mapLookup m2 kv.1 == some kv.2)

/-- Go `reflect.DeepEqual` on two non-nil maps: same key/value set. -/
def mapEq (m1 m2 : StrMap) : Bool :=
  mapSub m1 m2 && mapSub m2 m1

/-- Go `reflect.DeepEqual` on two `map[string]string` values, where `none`
models a nil map: nil equals only nil, and non-nil maps compare as sets. -/
def mapOEq : Option StrMap → Option StrMap → Bool
  | none, none => true
  | some a, some b => mapEq a b
  | _, _ => false

/-- Error class of the object store and of the Jenkins client, as the
reconcilers distinguish them: optimistic-concurrency conflicts, not-found,
and everything else carried as a message string. -/
inductive GoError where
  | conflict
  | notFound
  | other (msg : String)
deriving DecidableEq

/-- Render an error to its Go `err.Error()` message text. -/
def errMsg : GoError → String
  | GoError.conflict => "the object has been modified; please apply your changes to the latest version and try again"
  | GoError.notFound => "not found"
  | GoError.other s => s

/-- `client.IgnoreNotFound`: swallow not-found errors, keep the rest. -/
def ignoreNotFound : Option GoError → Option GoError
  | some GoError.notFound => none
  | e => e

/-- Observable actions of one reconciliation pass, in program order: calls to
the external CI engine and writes to the object store. -/
inductive TraceEv where
  | triggerCall (pipelines : List String) (branch : String)
  | fetchResult (runID : String)
  | fetchStages (runID : String)
  | deleteHistoryCall (jobName : String) (buildNum : Int)
  | listRunsCall
  | createWrite
  | metaWrite
  | statusWrite
deriving DecidableEq

/-- A loosely structured JSON-ish value, modelling the `interface{}` payload
fields of the Jenkins client (field values inside an object are carried as
strings, which is the shape the source ever looks at). -/
inductive JsonVal where
  | str (s : String)
  | num (n : Int)
  | obj (fields : StrMap)
deriving DecidableEq

/-- `fmt.Sprint` of a possibly absent `interface{}` value: a missing map
entry is a nil interface and prints as `<nil>`. -/
def fmtSprint : Option String → String
  | none => "<nil>"
  | some s => s

/-- A name/value run parameter (`v1alpha3.Parameter`, and the converted
`job.Parameter` has the same shape). -/
structure Param where
  name : String
  value : String
deriving DecidableEq

/-- The Jenkins client's view of one run (`job.PipelineRun`): its external
identifier, coarse state/result strings, and the untyped branch payload. -/
structure JobRun where
  id : String
  state : String
  result : String
  branch : Option JsonVal
deriving DecidableEq

/-- One stage/node of a Jenkins run (`job.Node`), as far as the reconciler
looks at it. -/
structure JobNode where
  id : String
  displayName : String
  state : String
  result : String
deriving DecidableEq

/-- `v1alpha3.SCM`: the source-control reference of a multi-branch run. -/
structure SCM where
  refName : String
  refType : String
deriving DecidableEq

/-- `corev1.ObjectReference` as used for the pipeline reference. -/
structure ObjRef where
  kind : String
  name : String
  nsp : String
deriving DecidableEq

/-- `v1alpha3.PipelineSpec`, reduced to the single field the embedded code
inspects: the pipeline type (multi-branch or not). -/
structure PipelineSpec where
  pType : String
deriving DecidableEq

/-- `v1alpha3.PipelineRunSpec`. -/
structure PipelineRunSpec where
  pipelineRef : Option ObjRef
  pipelineSpec : Option PipelineSpec
  parameters : List Param
  scm : Option SCM
deriving DecidableEq

/-- A timestamped status condition (`v1alpha3.Condition`). -/
structure Condition where
  ctype : String
  status : String
  reason : String
  message : String
  lastTransitionTime : Nat
  lastProbeTime : Nat
deriving DecidableEq

/-- `v1alpha3.PipelineRunStatus`. -/
structure PipelineRunStatus where
  phase : String
  conditions : List Condition
  startTime : Option Nat
  updateTime : Option Nat
deriving DecidableEq

/-- The run record (`v1alpha3.PipelineRun`) with the object-meta fields the
reconcilers read or write.  `disabled` carries the eligibility bit consulted
by the `Buildable` predicate. -/
structure PipelineRun where
  nsp : String
  name : String
  generateName : String
  deletionTimestamp : Option Nat
  finalizers : List String
  labels : Option StrMap
  annotations : Option StrMap
  disabled : Bool
  spec : PipelineRunSpec
  status : PipelineRunStatus
deriving DecidableEq

/-- The pipeline definition object (`v1alpha3.Pipeline`), read by both
reconcilers and lightly annotated for sync bookkeeping. -/
structure Pipeline where
  kind : String
  nsp : String
  name : String
  annotations : Option StrMap
  spec : PipelineSpec
deriving DecidableEq

/-- The object store contents plus write-attempt counters used to drive the
modelled optimistic-concurrency conflicts, and a counter backing
generate-name allocation. -/
structure Cluster where
  runs : List PipelineRun
  pipelines : List Pipeline
  metaAttempts : Nat
  statusAttempts : Nat
  pipeAttempts : Nat
  nameCounter : Nat
deriving DecidableEq

/-- The external collaborators of one pass: the CI engine client's responses
and the store's conflict schedule (attempt index ↦ does this write hit a
version conflict), plus the current wall-clock instant. -/
structure Env where
  build : List String → List Param → String → Except GoError JobRun
  getBuild : String → List String → String → Except GoError JobRun
  getNodes : List String → String → String → Except GoError (List JobNode)
  deleteHistory : String → Int → Option GoError
  listRuns : String → String → Except GoError (List JobRun)
  metaConflict : Nat → Bool
  statusConflict : Nat → Bool
  pipeConflict : Nat → Bool
  now : Nat

/-- `ctrl.Result` plus the returned error: requeue delay in seconds
(0 = no requeue) and the surfaced error, if any. -/
structure RecResult where
  requeueAfter : Nat
  err : Option GoError
deriving DecidableEq

/-! ### Constant keys and strings

The annotation/label keys, finalizer name and pipeline-type constant live in
`v1alpha3` outside src/; their exact spellings are immaterial, only their
distinctness is used. -/

/-- Annotation key of the external (Jenkins) run identifier. -/
def JenkinsPipelineRunIDKey : String := "devops.kubesphere.io/jenkins-pipelinerun-id"

/-- Annotation key of the serialized latest run-result snapshot. -/
def JenkinsPipelineRunStatusKey : String := "devops.kubesphere.io/jenkins-pipelinerun-status"

/-- Annotation key of the serialized latest stage/node-tree snapshot. -/
def JenkinsPipelineRunStagesStatusKey : String := "devops.kubesphere.io/jenkins-pipelinerun-stages-status"

/-- Label key holding the owning pipeline's name. -/
def PipelineNameLabelKey : String := "devops.kubesphere.io/pipeline"

/-- Label key holding the source-control reference name. -/
def SCMRefNameLabelKey : String := "devops.kubesphere.io/scm-ref-name"

/-- The run-record finalizer name. -/
def PipelineRunFinalizerName : String := "pipelinerun.finalizers.kubesphere.io"

/-- Pipeline-level "needs sync" marker annotation key. -/
def PipelineRequestToSyncRunsAnnoKey : String := "devops.kubesphere.io/request-to-sync-pipelinerun"

/-- The pipeline-type string marking a multi-branch pipeline. -/
def MultiBranchPipelineType : String := "multi-branch-pipeline"

/-- Label key marking an orphan run record. -/
def OrphanLabelKey : String := "devops.kubesphere.io/orphan"

/-- Phase and condition-status constants of `v1alpha3`. -/
def UnknownPhase : String := "Unknown"

/-- The `Running` lifecycle phase. -/
def RunningPhase : String := "Running"

/-- The `Succeeded` lifecycle phase. -/
def SucceededPhase : String := "Succeeded"

/-- The `Failed` lifecycle phase. -/
def FailedPhase : String := "Failed"

/-- Condition type `Succeeded`. -/
def ConditionSucceeded : String := "Succeeded"

/-- Condition status `Unknown`. -/
def ConditionUnknown : String := "Unknown"

/-- Error text of getSCMRefName for a broken multi-branch run. -/
def scmRefErrText : String := "failed to obtain SCM reference name for multi-branch Pipeline"

/-- Error text of CreateScm for a missing branch. -/
def missingBranchErrText : String := "missing branch name for running a multi-branch Pipeline"

/-- The substring by which deleteJenkinsJobHistory recognizes a Jenkins
not-found answer. -/
def notFoundResourcesText : String := "not found resources"

/-! ### Record helper methods

These methods of `v1alpha3.PipelineRun`/`PipelineRunStatus` are repository
code that is not under src/ (only their callers are); they are modelled from
the spec as marked. -/

/-- Read the external run identifier annotation (`GetPipelineRunID`).
Modelled from the spec: the external run identifier assigned by the CI
engine is stored in the annotations bag. -/
def PipelineRun.getPipelineRunID (pr : PipelineRun) : Option String :=
  olookup pr.annotations JenkinsPipelineRunIDKey

/-- `HasStarted`.  Modelled from the spec: a run counts as started exactly
when the external run identifier annotation is present. -/
def PipelineRun.hasStarted (pr : PipelineRun) : Bool :=
  pr.getPipelineRunID.isSome

/-- `Buildable`.  Modelled from the spec: a caller-supplied eligibility
predicate (e.g. a disabled record is not buildable); the record carries the
bit directly. -/
def PipelineRun.buildable (pr : PipelineRun) : Bool :=
  !pr.disabled

/-- `IsMultiBranchPipeline`.  Modelled from the spec: a run is multi-branch
exactly when its embedded pipeline spec carries the multi-branch type. -/
def PipelineRunSpec.isMultiBranch (spec : PipelineRunSpec) : Bool :=
  match spec.pipelineSpec with
  | none => false
  | some ps => ps.pType == MultiBranchPipelineType

/-- `LabelAsAnOrphan`.  Modelled from the spec: mark the record as an orphan
run in its labels. -/
def PipelineRun.labelAsAnOrphan (pr : PipelineRun) : PipelineRun :=
  { pr with labels := some (mapInsert (pr.labels.getD []) OrphanLabelKey "true") }

/-- `PipelineRunStatus.AddCondition`.  Modelled from the spec: add/refresh a
condition — replace the condition of the same type if present, else
append. -/
def PipelineRunStatus.addCondition (st : PipelineRunStatus) (c : Condition) : PipelineRunStatus :=
  if (st.conditions.find? (fun old => old.ctype == c.ctype)).isSome then
    { st with conditions := st.conditions.map (fun old => if old.ctype == c.ctype then c else old) }
  else
    { st with conditions := st.conditions ++ [c] }

/-- `sliceutil.HasString`. -/
def hasString (items : List String) (s : String) : Bool :=
  items.contains s

/-- `sliceutil.RemoveString` specialised to its one call site: drop every
item equal to the finalizer name. -/
def removeString (items : List String) (s : String) : List String :=
  items.filter (fun item => !(item == s))

/-- Digit-sequence value: `none` as soon as a non-digit appears. -/
def digitsToNatAux : List Char → Nat → Option Nat
  | [], acc => some acc
  | c :: rest, acc =>
    if c.isDigit then digitsToNatAux rest (acc * 10 + (c.toNat - 48)) else none

/-- Parse a non-empty all-digit character sequence. -/
def parseDigits : List Char → Option Nat
  | [] => none
  | l => digitsToNatAux l 0

/-- `strconv.Atoi`: optional sign followed by digits, else an error
(`none`). -/
def goAtoi (s : String) : Option Int :=
  match s.data with
  | [] => none
  | c :: rest =>
    if c = '-' then (parseDigits rest).map (fun n => -(Int.ofNat n))
    else if c = '+' then (parseDigits rest).map Int.ofNat
    else (parseDigits (c :: rest)).map Int.ofNat

/-- Does the pattern occur at the head of the character sequence? -/
def leadsWith : List Char → List Char → Bool
  | [], _ => true
  | _ :: _, [] => false
  | p :: ps, c :: cs => p == c && leadsWith ps cs

/-- Does the pattern occur anywhere in the character sequence? -/
def charsContain : List Char → List Char → Bool
  | s, pat =>
    if leadsWith pat s then true
    else
      match s with
      | [] => false
      | _ :: rest => charsContain rest pat

/-- `strings.Contains`. -/
def strContains (s pat : String) : Bool :=
  charsContain s.data pat.data

/-! ### Object store operations -/

/-- Find a run record by namespaced identity. -/
def findRun (runs : List PipelineRun) (nsp name : String) : Option PipelineRun :=
  runs.find? (fun r => r.nsp == nsp && r.name == name)

/-- `r.Get` on a run record. -/
def getRun (cl : Cluster) (nsp name : String) : Option PipelineRun :=
  findRun cl.runs nsp name

/-- Store-side effect of an `Update` on a run record: replace the object
with the same namespaced identity. -/
def replaceRun (runs : List PipelineRun) (pr : PipelineRun) : List PipelineRun :=
  runs.map (fun r => if r.nsp == pr.nsp && r.name == pr.name then pr else r)

/-- Find a pipeline definition by namespaced identity. -/
def findPipeline (ps : List Pipeline) (nsp name : String) : Option Pipeline :=
  ps.find? (fun p => p.nsp == nsp && p.name == name)

/-- `r.Get` on a pipeline definition. -/
def getPipeline (cl : Cluster) (nsp name : String) : Option Pipeline :=
  findPipeline cl.pipelines nsp name

/-- Store-side effect of an `Update` on a pipeline definition. -/
def replacePipeline (ps : List Pipeline) (p : Pipeline) : List Pipeline :=
  ps.map (fun q => if q.nsp == p.nsp && q.name == p.name then p else q)

/-- `r.Update` on a run record (metadata/object write): the write either
hits an optimistic-concurrency conflict, as scheduled for the current
attempt index, or lands. -/
def updateRunObj (env : Env) (cl : Cluster) (pr : PipelineRun) :
    Cluster × Option GoError × List TraceEv :=
  if env.metaConflict cl.metaAttempts then
    ({ cl with metaAttempts := cl.metaAttempts + 1 }, some GoError.conflict, [])
  else
    ({ cl with runs := replaceRun cl.runs pr, metaAttempts := cl.metaAttempts + 1 },
      none, [TraceEv.metaWrite])

/-- `r.Status().Update` on a run record (status sub-resource write). -/
def updateStatusObj (env : Env) (cl : Cluster) (pr : PipelineRun) :
    Cluster × Option GoError × List TraceEv :=
  if env.statusConflict cl.statusAttempts then
    ({ cl with statusAttempts := cl.statusAttempts + 1 }, some GoError.conflict, [])
  else
    ({ cl with runs := replaceRun cl.runs pr, statusAttempts := cl.statusAttempts + 1 },
      none, [TraceEv.statusWrite])

/-- `r.Client.Update` on a pipeline definition. -/
def updatePipelineObj (env : Env) (cl : Cluster) (p : Pipeline) :
    Cluster × Option GoError × List TraceEv :=
  if env.pipeConflict cl.pipeAttempts then
    ({ cl with pipeAttempts := cl.pipeAttempts + 1 }, some GoError.conflict, [])
  else
    ({ cl with pipelines := replacePipeline cl.pipelines p, pipeAttempts := cl.pipeAttempts + 1 },
      none, [TraceEv.metaWrite])

/-- `r.Client.Create` of a run record: the store materializes the
generate-name into a fresh concrete name and appends the object. -/
def clusterCreate (cl : Cluster) (pr : PipelineRun) : Cluster × PipelineRun :=
  let named := if pr.name == "" then { pr with name := pr.generateName ++ toString cl.nameCounter } else pr
  ({ cl with runs := cl.runs ++ [named], nameCounter := cl.nameCounter + 1 }, named)

/-- `retry.RetryOnConflict`: run the read-mutate-write closure, retrying
while it reports a version conflict, up to the given number of attempts
(client-go `DefaultRetry` has 5 steps); the last conflict is surfaced once
the attempts are exhausted, any other error immediately. -/
def retryOnConflict : Nat → (Cluster → Cluster × Option GoError × List TraceEv) → Cluster →
    Cluster × Option GoError × List TraceEv
  | 0, _, cl => (cl, some GoError.conflict, [])
  | n + 1, f, cl =>
    match f cl with
    | (cl2, none, t) => (cl2, none, t)
    | (cl2, some GoError.conflict, t) =>
      match n with
      | 0 => (cl2, some GoError.conflict, t)
      | m + 1 =>
        let r := retryOnConflict (m + 1) f cl2
        (r.1, r.2.1, t ++ r.2.2)
    | (cl2, some e, t) => (cl2, some e, t)

/-- The number of attempts of client-go's `retry.DefaultRetry` backoff
(Steps = 5). -/
def defaultRetrySteps : Nat := 5

/-! ### Run reconciler helpers (src/unnamed/part_000, first file) -/

/-- `getSCMRefName`: empty branch for a non-multi-branch run; for a
multi-branch run the SCM reference name, which must be present and
non-empty. -/
def getSCMRefName (prSpec : PipelineRunSpec) : Except GoError String :=
  if prSpec.isMultiBranch then
    match prSpec.scm with
    | none => Except.error (GoError.other scmRefErrText)
    | some scm =>
      if scm.refName == "" then Except.error (GoError.other scmRefErrText)
      else Except.ok scm.refName
  else
    Except.ok ""

/-- `parameterConverter.convert` (source not under src/).  Modelled from the
spec: the run's name/value parameters are handed to the trigger call
unchanged in shape. -/
def parameterConverter (params : List Param) : List Param :=
  params

/-- `Reconciler.triggerJenkinsJob`: resolve the branch, then ask the engine
to build. -/
def Reconciler.triggerJenkinsJob (env : Env) (devopsProjectName pipelineName : String)
    (prSpec : PipelineRunSpec) : Except GoError JobRun × List TraceEv :=
  match getSCMRefName prSpec with
  | Except.error e => (Except.error e, [])
  | Except.ok branch =>
    (env.build [devopsProjectName, pipelineName] (parameterConverter prSpec.parameters) branch,
      [TraceEv.triggerCall [devopsProjectName, pipelineName] branch])

/-- `Reconciler.getPipelineRunResult`: needs the stored run identifier and
the branch before the fetch is issued. -/
def Reconciler.getPipelineRunResult (env : Env) (devopsProjectName pipelineName : String)
    (pr : PipelineRun) : Except GoError JobRun × List TraceEv :=
  match pr.getPipelineRunID with
  | none => (Except.error (GoError.other "unable to get PipelineRun result due to not found run ID"), [])
  | some runID =>
    match getSCMRefName pr.spec with
    | Except.error e => (Except.error e, [])
    | Except.ok branch =>
      (env.getBuild runID [devopsProjectName, pipelineName] branch, [TraceEv.fetchResult runID])

/-- `Reconciler.getPipelineNodes`: same preconditions as the result fetch. -/
def Reconciler.getPipelineNodes (env : Env) (devopsProjectName pipelineName : String)
    (pr : PipelineRun) : Except GoError (List JobNode) × List TraceEv :=
  match pr.getPipelineRunID with
  | none => (Except.error (GoError.other "unable to get PipelineRun result due to not found run ID"), [])
  | some runID =>
    match getSCMRefName pr.spec with
    | Except.error e => (Except.error e, [])
    | Except.ok branch =>
      (env.getNodes [devopsProjectName, pipelineName] branch runID, [TraceEv.fetchStages runID])

/-- `getJenkinsBuildNumber`: the annotation parsed as an integer, `-1` when
absent or unparsable. -/
def getJenkinsBuildNumber (pr : PipelineRun) : Int :=
  match pr.getPipelineRunID with
  | none => -1
  | some buildNum =>
    match goAtoi buildNum with
    | none => -1
    | some num => num

/-- The `fmt.Sprintf` job path of `deleteJenkinsJobHistory`. -/
def jobPath (nsp name : String) : String :=
  "job/" ++ nsp ++ "/job/" ++ name

/-- `Reconciler.deleteJenkinsJobHistory`: skip when there is no valid build
number; otherwise delete the history on the engine, treating an answer whose
message contains "not found resources" as success.  The outer `none` models
the Go panic on a nil pipeline reference dereference while forming the job
name. -/
def Reconciler.deleteJenkinsJobHistory (env : Env) (pr : PipelineRun) :
    Option (Option GoError) × List TraceEv :=
  let buildNum := getJenkinsBuildNumber pr
  if buildNum < 0 then (some none, [])
  else
    match pr.spec.pipelineRef with
    | none => (none, [])
    | some ref =>
      let jobName := jobPath pr.nsp ref.name
      match env.deleteHistory jobName buildNum with
      | none => (some none, [TraceEv.deleteHistoryCall jobName buildNum])
      | some e =>
        if strContains (errMsg e) notFoundResourcesText then
          (some none, [TraceEv.deleteHistoryCall jobName buildNum])
        else
          (some (some (GoError.other ("failed to delete Jenkins job: " ++ jobName ++ ", build: "
            ++ toString buildNum ++ ", error: " ++ errMsg e))),
            [TraceEv.deleteHistoryCall jobName buildNum])

/-- `json.Marshal` of a run result, as an injective-enough rendering. -/
def serializeRun (b : JobRun) : String :=
  b.id ++ "|" ++ b.state ++ "|" ++ b.result

/-- `json.Marshal` of the stage/node list. -/
def serializeNodes (ns : List JobNode) : String :=
  String.intercalate ";" (ns.map (fun n => n.id ++ "|" ++ n.displayName ++ "|" ++ n.state ++ "|" ++ n.result))

/-- `pipelineBuildApplier.apply` (source not under src/).  Modelled from the
spec: translate the remote run result into the local lifecycle phase and
refresh the update timestamp. -/
def pipelineBuildApply (build : JobRun) (st : PipelineRunStatus) (now : Nat) : PipelineRunStatus :=
  let phase :=
    if build.state == "FINISHED" then
      if build.result == "SUCCESS" then SucceededPhase
      else if build.result == "FAILURE" then FailedPhase
      else UnknownPhase
    else if build.state == "RUNNING" then RunningPhase
    else UnknownPhase
  { st with phase := phase, updateTime := some now }

/-- `Reconciler.updateLabelsAndAnnotations`: re-fetch the latest version,
skip the write when labels and annotations are already as desired, else
write them (ensuring the finalizer) in a single attempt. -/
def Reconciler.updateLabelsAndAnnotations (env : Env) (cl : Cluster) (pr : PipelineRun) :
    Cluster × Option GoError × List TraceEv :=
  match getRun cl pr.nsp pr.name with
  | none => (cl, some GoError.notFound, [])
  | some prToUpdate =>
    if mapOEq pr.labels prToUpdate.labels && mapOEq pr.annotations prToUpdate.annotations then
      (cl, none, [])
    else
      let finals :=
        if hasString prToUpdate.finalizers PipelineRunFinalizerName then prToUpdate.finalizers
        else prToUpdate.finalizers ++ [PipelineRunFinalizerName]
      updateRunObj env cl
        { prToUpdate with labels := pr.labels, annotations := pr.annotations, finalizers := finals }

/-- The read-compare-write closure handed by `Reconciler.updateStatus` to
`retry.RetryOnConflict`. -/
def updateStatusBody (env : Env) (desiredStatus : PipelineRunStatus) (nsp name : String)
    (cl : Cluster) : Cluster × Option GoError × List TraceEv :=
  match getRun cl nsp name with
  | none => (cl, some GoError.notFound, [])
  | some prToUpdate =>
    if desiredStatus = prToUpdate.status then (cl, none, [])
    else updateStatusObj env cl { prToUpdate with status := desiredStatus }

/-- `Reconciler.updateStatus`: the conflict-safe status write. -/
def Reconciler.updateStatus (env : Env) (cl : Cluster) (desiredStatus : PipelineRunStatus)
    (nsp name : String) : Cluster × Option GoError × List TraceEv :=
  retryOnConflict defaultRetrySteps (updateStatusBody env desiredStatus nsp name) cl

/-- `Reconciler.makePipelineRunOrphan`: label the record as an orphan and
persist the metadata; the skip condition and Unknown phase are computed on
the local copy `prToUpdate`, but the status write is issued for the
unmodified `pr.Status` — a faithful rendering of the source. -/
def Reconciler.makePipelineRunOrphan (env : Env) (cl : Cluster) (pr : PipelineRun) :
    Cluster × Option GoError × List TraceEv :=
  let prToUpdate := pr.labelAsAnOrphan
  match Reconciler.updateLabelsAndAnnotations env cl prToUpdate with
  | (cl2, some e, t) => (cl2, some e, t)
  | (cl2, none, t) =>
    let condition : Condition :=
      { ctype := ConditionSucceeded, status := ConditionUnknown, reason := "SKIPPED",
        message := "skipped to reconcile this PipelineRun due to not found Pipeline reference in PipelineRun.",
        lastTransitionTime := env.now, lastProbeTime := env.now }
    let _prToUpdate2 :=
      { prToUpdate with status := { (prToUpdate.status.addCondition condition) with phase := UnknownPhase } }
    let r := Reconciler.updateStatus env cl2 pr.status pr.nsp pr.name
    (r.1, r.2.1, t ++ r.2.2)

/-! ### The run reconciler's main entry point -/

/-- The "started, polling" branch of `Reconciler.Reconcile` (lines 121-172):
fetch result and stages, store both snapshots in annotations, then write
metadata before status, and requeue after 3 seconds. -/
def Reconciler.reconcileStarted (env : Env) (cl : Cluster) (reqNs reqName : String)
    (namespaceName pipelineName : String) (pr : PipelineRun) :
    Option (Cluster × RecResult) × List TraceEv :=
  match Reconciler.getPipelineRunResult env namespaceName pipelineName pr with
  | (Except.error e, t1) => (some (cl, ⟨0, some e⟩), t1)
  | (Except.ok pipelineBuild, t1) =>
    match Reconciler.getPipelineNodes env namespaceName pipelineName pr with
    | (Except.error e, t2) => (some (cl, ⟨0, some e⟩), t1 ++ t2)
    | (Except.ok prNodes, t2) =>
      let runResultJSON := serializeRun pipelineBuild
      let prNodesJSON := serializeNodes prNodes
      let anns :=
        mapInsert (mapInsert (pr.annotations.getD []) JenkinsPipelineRunStatusKey runResultJSON)
          JenkinsPipelineRunStagesStatusKey prNodesJSON
      let pr2 := { pr with annotations := some anns }
      match Reconciler.updateLabelsAndAnnotations env cl pr2 with
      | (cl2, some e, t3) => (some (cl2, ⟨1, some e⟩), t1 ++ t2 ++ t3)
      | (cl2, none, t3) =>
        let status := pipelineBuildApply pipelineBuild pr2.status env.now
        match Reconciler.updateStatus env cl2 status reqNs reqName with
        | (cl3, some e, t4) => (some (cl3, ⟨1, some e⟩), t1 ++ t2 ++ t3 ++ t4)
        | (cl3, none, t4) => (some (cl3, ⟨3, none⟩), t1 ++ t2 ++ t3 ++ t4)

/-- The "first run" branch of `Reconciler.Reconcile` (lines 174-206):
trigger the Jenkins job, persist the returned run identifier into the
annotations, then set start/update timestamps on the status, and requeue
after 1 second. -/
def Reconciler.reconcileNotStarted (env : Env) (cl : Cluster) (reqNs reqName : String)
    (namespaceName pipelineName : String) (pr : PipelineRun) :
    Option (Cluster × RecResult) × List TraceEv :=
  match Reconciler.triggerJenkinsJob env namespaceName pipelineName pr.spec with
  | (Except.error e, t1) => (some (cl, ⟨0, some e⟩), t1)
  | (Except.ok pipelineBuild, t1) =>
    let anns := mapInsert (pr.annotations.getD []) JenkinsPipelineRunIDKey pipelineBuild.id
    let pr2 := { pr with annotations := some anns }
    match Reconciler.updateLabelsAndAnnotations env cl pr2 with
    | (cl2, some e, t2) => (some (cl2, ⟨0, some e⟩), t1 ++ t2)
    | (cl2, none, t2) =>
      let pr3 := { pr2 with status :=
        { pr2.status with startTime := some env.now, updateTime := some env.now } }
      match Reconciler.updateStatus env cl2 pr3.status reqNs reqName with
      | (cl3, some e, t3) => (some (cl3, ⟨0, some e⟩), t1 ++ t2 ++ t3)
      | (cl3, none, t3) => (some (cl3, ⟨1, none⟩), t1 ++ t2 ++ t3)

/-- `Reconciler.Reconcile`: the single-run reconciliation pass.  The outer
`none` models a Go panic (propagated from `deleteJenkinsJobHistory`). -/
def Reconciler.Reconcile (env : Env) (cl : Cluster) (reqNs reqName : String) :
    Option (Cluster × RecResult) × List TraceEv :=
  match getRun cl reqNs reqName with
  | none => (some (cl, ⟨0, ignoreNotFound (some GoError.notFound)⟩), [])
  | some pr =>
    if pr.deletionTimestamp.isSome then
      match Reconciler.deleteJenkinsJobHistory env pr with
      | (none, t) => (none, t)
      | (some (some e), t) => (some (cl, ⟨0, some e⟩), t)
      | (some none, t) =>
        let pr2 := { pr with finalizers := removeString pr.finalizers PipelineRunFinalizerName }
        let r := updateRunObj env cl pr2
        (some (r.1, ⟨0, r.2.1⟩), t ++ r.2.2)
    else if !pr.buildable then
      (some (cl, ⟨0, none⟩), [])
    else
      match pr.spec.pipelineRef with
      | none =>
        let r := Reconciler.makePipelineRunOrphan env cl pr
        (some (r.1, ⟨0, r.2.1⟩), r.2.2)
      | some pipelineRef =>
        if pipelineRef.name == "" then
          let r := Reconciler.makePipelineRunOrphan env cl pr
          (some (r.1, ⟨0, r.2.1⟩), r.2.2)
        else
          match getPipeline cl pr.nsp pipelineRef.name with
          | none => (some (cl, ⟨0, ignoreNotFound (some GoError.notFound)⟩), [])
          | some pipeline =>
            let namespaceName := pipeline.nsp
            let pipelineName := pipeline.name
            let labels0 := pr.labels.getD []
            let labels1 := mapInsert labels0 PipelineNameLabelKey pipelineName
            let labels2 :=
              match getSCMRefName pr.spec with
              | Except.ok refName =>
                if refName != "" then mapInsert labels1 SCMRefNameLabelKey refName else labels1
              | Except.error _ => labels1
            let pr1 := { pr with labels := some labels2 }
            if pr1.hasStarted then
              Reconciler.reconcileStarted env cl reqNs reqName namespaceName pipelineName pr1
            else
              Reconciler.reconcileNotStarted env cl reqNs reqName namespaceName pipelineName pr1

/-! ### Record builders (src/pkg/kapis/devops/v1alpha3/pipelinerun/util.go) -/

/-- A parameter of an externally supplied run payload
(`devops.RunPayload`). -/
structure PayloadParam where
  name : String
  value : JsonVal
deriving DecidableEq

/-- `devops.RunPayload`. -/
structure RunPayload where
  parameters : List PayloadParam
deriving DecidableEq

/-- Printing of a payload parameter value by `fmt.Sprint`. -/
def sprintVal : JsonVal → String
  | JsonVal.str s => s
  | JsonVal.num n => toString n
  | JsonVal.obj _ => "map[]"

/-- `convertParameters`: skip parameters with an empty name or the empty
string as value; stringify the rest. -/
def convertParameters : Option RunPayload → List Param
  | none => []
  | some payload =>
    payload.parameters.filterMap (fun p =>
      if p.name == "" || p.value == JsonVal.str "" then none
      else some { name := p.name, value := sprintVal p.value })

/-- `CreateScm`: a multi-branch pipeline needs a non-empty branch and gets
an SCM with that reference name; other pipelines get no SCM. -/
def CreateScm (ps : PipelineSpec) (branch : String) : Except GoError (Option SCM) :=
  if ps.pType == MultiBranchPipelineType then
    if branch == "" then Except.error (GoError.other missingBranchErrText)
    else Except.ok (some { refName := branch, refType := "" })
  else
    Except.ok none

/-- `getPipelineRef`. -/
def getPipelineRef (pipeline : Pipeline) : ObjRef :=
  { kind := pipeline.kind, name := pipeline.name, nsp := pipeline.nsp }

/-- The zero value of a run record's status. -/
def emptyStatus : PipelineRunStatus :=
  { phase := "", conditions := [], startTime := none, updateTime := none }

/-- `CreatePipelineRun`: a bare record owned by the pipeline, with a
generate-name prefix, an empty (non-nil) annotation map, and the spec
derived from the pipeline definition. -/
def CreatePipelineRun (pipeline : Pipeline) (payload : Option RunPayload) (scm : Option SCM) :
    PipelineRun :=
  { nsp := pipeline.nsp
    name := ""
    generateName := pipeline.name ++ "-"
    deletionTimestamp := none
    finalizers := []
    labels := none
    annotations := some []
    disabled := false
    spec :=
      { pipelineRef := some (getPipelineRef pipeline)
        pipelineSpec := some pipeline.spec
        parameters := convertParameters payload
        scm := scm }
    status := emptyStatus }

/-! ### Set synchronizer (src/unnamed/part_000, second file) -/

/-- Outcome of building a bare record from a remote run: built, skipped with
an error, or a Go panic from the unchecked `run.Branch.(map[string]interface
\x7b\x7d)` type assertion. -/
inductive BareOut where
  | ok (pr : PipelineRun)
  | err (e : GoError)
  | panicked
deriving DecidableEq

/-- `createBarePipelineRun`: stringify the remote run's branch payload — a
non-nil, non-map value makes the type assertion panic, and a map without a
"url" entry stringifies to "<nil>" — then build the bare record and stamp
the external run identifier annotation. -/
def createBarePipelineRun (pipeline : Pipeline) (run : JobRun) : BareOut :=
  let branchRes : Option String :=
    match run.branch with
    | none => some ""
    | some (JsonVal.obj fields) => some (fmtSprint (mapLookup fields "url"))
    | some _ => none
  match branchRes with
  | none => BareOut.panicked
  | some branch =>
    match CreateScm pipeline.spec branch with
    | Except.error e => BareOut.err e
    | Except.ok scm =>
      let pr := CreatePipelineRun pipeline none scm
      let anns := some (mapInsert (pr.annotations.getD []) JenkinsPipelineRunIDKey run.id)
      BareOut.ok { pr with annotations := anns }

/-- The creation loop of `SyncReconciler.Reconcile`: for every remote run
whose identifier is not yet recorded locally, build and create a bare
record; creation errors are logged and skipped, a panic aborts the pass. -/
def syncCreateLoop (pipeline : Pipeline) (prContainer : List String) :
    List JobRun → Cluster → Nat → Option (Cluster × Nat × List TraceEv)
  | [], cl, created => some (cl, created, [])
  | jenkinsRun :: rest, cl, created =>
    if prContainer.contains jenkinsRun.id then
      syncCreateLoop pipeline prContainer rest cl created
    else
      match createBarePipelineRun pipeline jenkinsRun with
      | BareOut.panicked => none
      | BareOut.err _ => syncCreateLoop pipeline prContainer rest cl created
      | BareOut.ok pr =>
        let r := clusterCreate cl pr
        match syncCreateLoop pipeline prContainer rest r.1 (created + 1) with
        | none => none
        | some (cl2, c2, t2) => some (cl2, c2, TraceEv.createWrite :: t2)

/-- The read-compare-write closure of
`SyncReconciler.synchronizedSuccessfully`: nothing to do when the marker is
already absent, else delete the marker annotation and update the
pipeline. -/
def syncSuccBody (env : Env) (nsp name : String) (cl : Cluster) :
    Cluster × Option GoError × List TraceEv :=
  match getPipeline cl nsp name with
  | none => (cl, some GoError.notFound, [])
  | some pipelineToUpdate =>
    if (olookup pipelineToUpdate.annotations PipelineRequestToSyncRunsAnnoKey).isNone then
      (cl, none, [])
    else
      updatePipelineObj env cl
        { pipelineToUpdate with annotations :=
            pipelineToUpdate.annotations.map (fun m => mapErase m PipelineRequestToSyncRunsAnnoKey) }

/-- `SyncReconciler.synchronizedSuccessfully`: remove the "needs sync"
marker under the conflict-retry policy. -/
def SyncReconciler.synchronizedSuccessfully (env : Env) (cl : Cluster) (nsp name : String) :
    Cluster × Option GoError × List TraceEv :=
  retryOnConflict defaultRetrySteps (syncSuccBody env nsp name) cl

/-- The local run records the synchronizer lists for a pipeline: same
namespace, labeled with the pipeline's name. -/
def syncLocalRuns (cl : Cluster) (pipeline : Pipeline) : List PipelineRun :=
  cl.runs.filter (fun pr =>
    pr.nsp == pipeline.nsp && olookup pr.labels PipelineNameLabelKey == some pipeline.name)

/-- The `prContainer` key set: each listed record's external run identifier
annotation (the empty string when absent, as Go map indexing yields). -/
def syncContainer (cl : Cluster) (pipeline : Pipeline) : List String :=
  (syncLocalRuns cl pipeline).map (fun pr => (pr.getPipelineRunID).getD "")

/-- `SyncReconciler.Reconcile`: one synchronizer pass over a pipeline.
Returns the updated store, the result/error, and the number of bare records
created (the count the source reports in its summary event); `none` models a
panic escaping from `createBarePipelineRun`. -/
def SyncReconciler.Reconcile (env : Env) (cl : Cluster) (reqNs reqName : String) :
    Option (Cluster × RecResult × Nat) × List TraceEv :=
  match getPipeline cl reqNs reqName with
  | none => (some (cl, ⟨0, ignoreNotFound (some GoError.notFound)⟩, 0), [])
  | some pipeline =>
    let prContainer := syncContainer cl pipeline
    match env.listRuns pipeline.name pipeline.nsp with
    | Except.error e => (some (cl, ⟨0, some e⟩, 0), [TraceEv.listRunsCall])
    | Except.ok jenkinsRuns =>
      match syncCreateLoop pipeline prContainer jenkinsRuns cl 0 with
      | none => (none, [TraceEv.listRunsCall])
      | some (cl2, created, tc) =>
        let r := SyncReconciler.synchronizedSuccessfully env cl2 reqNs reqName
        match r.2.1 with
        | some e => (some (r.1, ⟨0, some e⟩, created), TraceEv.listRunsCall :: (tc ++ r.2.2))
        | none => (some (r.1, ⟨0, none⟩, created), TraceEv.listRunsCall :: (tc ++ r.2.2))

/-! ### Trace observables -/

/-- Is this event a trigger call to the external engine? -/
def isTrigger : TraceEv → Bool
  | TraceEv.triggerCall _ _ => true
  | _ => false

/-- Is this event any call to the external CI engine? -/
def isEngineCall : TraceEv → Bool
  | TraceEv.triggerCall _ _ => true
  | TraceEv.fetchResult _ => true
  | TraceEv.fetchStages _ => true
  | TraceEv.deleteHistoryCall _ _ => true
  | TraceEv.listRunsCall => true
  | _ => false

/-- Number of trigger calls in a trace. -/
def countTrigger (t : List TraceEv) : Nat :=
  t.countP isTrigger

/-- Number of CI-engine calls in a trace. -/
def countEngine (t : List TraceEv) : Nat :=
  t.countP isEngineCall

/-- Index of the first occurrence of an event in a trace. -/
def firstIdx (e : TraceEv) : List TraceEv → Nat
  | [] => 0
  | x :: rest => if x == e then 0 else firstIdx e rest + 1

/-- No metadata write is issued after a status write (within one pass): the
order in which an observer of the store can see the two writes. -/
def noMetaAfterStatus : List TraceEv → Bool
  | [] => true
  | TraceEv.statusWrite :: rest => !rest.contains TraceEv.metaWrite && noMetaAfterStatus rest
  | _ :: rest => noMetaAfterStatus rest

/-- External run identifier currently stored for a run record, if any. -/
def storedRunID (cl : Cluster) (nsp name : String) : Option String :=
  (getRun cl nsp name).bind (fun r => r.getPipelineRunID)

/-! ### Concrete fixtures

Small concrete environments and stores used to evaluate the reconcilers on
explicit inputs. -/

/-- The remote run the happy-path engine returns from a trigger call. -/
def run7 : JobRun := { id := "7", state := "RUNNING", result := "UNKNOWN", branch := none }

/-- A well-behaved engine and store: trigger yields run "7", polling yields
a finished successful build, no conflicts. -/
def envHappy : Env :=
  { build := fun _ _ _ => Except.ok run7
    getBuild := fun _ _ _ => Except.ok { id := "7", state := "FINISHED", result := "SUCCESS", branch := none }
    getNodes := fun _ _ _ => Except.ok []
    deleteHistory := fun _ _ => none
    listRuns := fun _ _ => Except.ok []
    metaConflict := fun _ => false
    statusConflict := fun _ => false
    pipeConflict := fun _ => false
    now := 100 }

/-- The pipeline definition `demo/pipeline-a` (single-branch). -/
def pipeDemo : Pipeline :=
  { kind := "Pipeline", nsp := "demo", name := "pipeline-a", annotations := none,
    spec := { pType := "pipeline" } }

/-- A fresh run record for `demo/pipeline-a` with no external identifier. -/
def prDemo : PipelineRun :=
  { nsp := "demo", name := "run-1", generateName := "", deletionTimestamp := none,
    finalizers := [], labels := none, annotations := none, disabled := false,
    spec := { pipelineRef := some { kind := "Pipeline", name := "pipeline-a", nsp := "demo" },
              pipelineSpec := some { pType := "pipeline" }, parameters := [], scm := none },
    status := emptyStatus }

/-- Store holding the fresh record and its pipeline. -/
def clDemo : Cluster :=
  { runs := [prDemo], pipelines := [pipeDemo], metaAttempts := 0, statusAttempts := 0,
    pipeAttempts := 0, nameCounter := 0 }

/-- A started record (external identifier "7" already present). -/
def prStarted : PipelineRun :=
  { prDemo with name := "run-2", annotations := some [(JenkinsPipelineRunIDKey, "7")] }

/-- Store holding the started record. -/
def clStarted : Cluster := { clDemo with runs := [prStarted] }

/-- Engine whose delete-history call answers with a not-found error body. -/
def envDelNF : Env :=
  { envHappy with
    deleteHistory := fun _ _ =>
      some (GoError.other "unexpected status code: 404, response: not found resources") }

/-- A record being deleted, carrying run identifier "7" and the finalizer. -/
def prDel : PipelineRun :=
  { prDemo with
    name := "run-3", deletionTimestamp := some 5,
    finalizers := [PipelineRunFinalizerName],
    annotations := some [(JenkinsPipelineRunIDKey, "7")] }

/-- Store holding the record being deleted. -/
def clDel : Cluster := { clDemo with runs := [prDel] }

/-- Store whose first write attempt (metadata and status alike) hits a
version conflict; the second attempt would succeed. -/
def envConfOnce : Env :=
  { envHappy with metaConflict := fun k => k == 0, statusConflict := fun k => k == 0 }

/-- Store whose status writes always conflict. -/
def envConfAlways : Env := { envHappy with statusConflict := fun _ => true }

/-- A desired record differing from the stored one only in labels. -/
def prLabWant : PipelineRun := { prDemo with labels := some [("app", "demo")] }

/-- A buildable record with no pipeline reference (orphan candidate). -/
def prOrphanX : PipelineRun :=
  { prDemo with name := "run-4", spec := { prDemo.spec with pipelineRef := none } }

/-- Store holding the orphan candidate. -/
def clOrphanX : Cluster := { clDemo with runs := [prOrphanX] }

/-- A record whose pipeline reference names a pipeline absent from the
store. -/
def prMissX : PipelineRun :=
  { prDemo with
    name := "run-9",
    spec := { prDemo.spec with pipelineRef := some { kind := "Pipeline", name := "missing", nsp := "demo" } } }

/-- Store holding the record with the dangling reference. -/
def clMissX : Cluster := { clDemo with runs := [prMissX] }

/-- A multi-branch pipeline definition. -/
def pipeMB : Pipeline := { pipeDemo with spec := { pType := MultiBranchPipelineType } }

/-- A multi-branch run record without a source-control reference. -/
def prMBNoSCM : PipelineRun :=
  { prDemo with
    name := "run-7",
    spec := { prDemo.spec with pipelineSpec := some { pType := MultiBranchPipelineType }, scm := none } }

/-- Store for the broken multi-branch record (trigger path). -/
def clMBNoSCM : Cluster :=
  { runs := [prMBNoSCM], pipelines := [pipeMB], metaAttempts := 0, statusAttempts := 0,
    pipeAttempts := 0, nameCounter := 0 }

/-- The broken multi-branch record with an identifier already present
(polling path). -/
def prMBStarted : PipelineRun :=
  { prMBNoSCM with name := "run-8", annotations := some [(JenkinsPipelineRunIDKey, "5")] }

/-- Store for the polling-path broken multi-branch record. -/
def clMBStarted : Cluster := { clMBNoSCM with runs := [prMBStarted] }

/-- Remote run "1" as the engine lists it. -/
def jrOne : JobRun := { id := "1", state := "FINISHED", result := "SUCCESS", branch := none }

/-- Remote run "2" as the engine lists it. -/
def jrTwo : JobRun := { id := "2", state := "FINISHED", result := "SUCCESS", branch := none }

/-- Engine listing two remote runs for the pipeline. -/
def envSync : Env := { envHappy with listRuns := fun _ _ => Except.ok [jrOne, jrTwo] }

/-- A local record already matched to remote run "1". -/
def prLocal : PipelineRun :=
  { prDemo with
    name := "pipeline-a-x",
    labels := some [(PipelineNameLabelKey, "pipeline-a")],
    annotations := some [(JenkinsPipelineRunIDKey, "1")] }

/-- The pipeline carrying the "needs sync" marker annotation. -/
def pipeSync : Pipeline :=
  { pipeDemo with annotations := some [(PipelineRequestToSyncRunsAnnoKey, "true")] }

/-- Store for the synchronizer scenario: one matched local record, two
remote runs. -/
def clSync : Cluster :=
  { runs := [prLocal], pipelines := [pipeSync], metaAttempts := 0, statusAttempts := 0,
    pipeAttempts := 0, nameCounter := 0 }

/-! ### Map lemmas -/

theorem mapLookup_append (m1 m2 : StrMap) (k : String) :
    mapLookup (m1 ++ m2) k = ((mapLookup m1 k).orElse (fun _ => mapLookup m2 k)) := by
  induction m1 with
  | nil => simp [mapLookup, Option.orElse]
  | cons kv rest ih =>
    by_cases h : kv.1 = k
    · simp [mapLookup, h, Option.orElse]
    · have hb : (kv.1 == k) = false := beq_false_of_ne h
      simp only [List.cons_append, mapLookup, hb, if_false, Bool.false_eq_true]
      exact ih

theorem mapLookup_erase_self (m : StrMap) (k : String) :
    mapLookup (mapErase m k) k = none := by
  induction m with
  | nil => simp [mapErase, mapLookup]
  | cons kv rest ih =>
    by_cases h : kv.1 = k
    · simpa [mapErase, h] using ih
    · have hb : (kv.1 == k) = false := beq_false_of_ne h
      simp only [mapErase, hb, if_false, Bool.false_eq_true, mapLookup]
      exact ih

theorem mapLookup_erase_ne (m : StrMap) (k k' : String) (h : k' ≠ k) :
    mapLookup (mapErase m k) k' = mapLookup m k' := by
  induction m with
  | nil => simp [mapErase, mapLookup]
  | cons kv rest ih =>
    by_cases h1 : kv.1 = k
    · have hb2 : (kv.1 == k') = false := beq_false_of_ne (by
        intro hc
        exact h (hc ▸ h1))
      have hbk : (k == k') = false := beq_false_of_ne (fun hc => h hc.symm)
      simp only [mapErase, h1, if_true, beq_self_eq_true, mapLookup, hb2, hbk, if_false,
        Bool.false_eq_true]
      exact ih
    · have hb : (kv.1 == k) = false := beq_false_of_ne h1
      simp only [mapErase, hb, if_false, Bool.false_eq_true, mapLookup]
      by_cases h2 : kv.1 = k'
      · simp [h2]
      · have hb2 : (kv.1 == k') = false := beq_false_of_ne h2
        simp only [hb2, if_false, Bool.false_eq_true]
        exact ih

theorem mapLookup_insert_self (m : StrMap) (k v : String) :
    mapLookup (mapInsert m k v) k = some v := by
  rw [mapInsert, mapLookup_append, mapLookup_erase_self]
  simp [mapLookup, Option.orElse]

theorem mapLookup_insert_ne (m : StrMap) (k v k' : String) (h : k' ≠ k) :
    mapLookup (mapInsert m k v) k' = mapLookup m k' := by
  have hb : (k == k') = false := beq_false_of_ne (fun hc => h hc.symm)
  rw [mapInsert, mapLookup_append, mapLookup_erase_ne m k k' h]
  cases hx : mapLookup m k' with
  | some w => simp [Option.orElse]
  | none => simp [Option.orElse, mapLookup, hb]

theorem mem_of_mapLookup {m : StrMap} {k v : String} (h : mapLookup m k = some v) :
    (k, v) ∈ m := by
  induction m with
  | nil => simp [mapLookup] at h
  | cons kv rest ih =>
    by_cases h1 : kv.1 = k
    · have hb : (kv.1 == k) = true := beq_iff_eq.mpr h1
      simp only [mapLookup, hb, if_true, Option.some.injEq] at h
      have hkv : kv = (k, v) := by
        cases kv
        simp only at h1 h
        simp [h1, h]
      rw [hkv]
      exact List.mem_cons_self _ _
    · have hb : (kv.1 == k) = false := beq_false_of_ne h1
      simp only [mapLookup, hb, if_false, Bool.false_eq_true] at h
      exact List.mem_cons_of_mem _ (ih h)

theorem mapSub_lookup {m1 m2 : StrMap} (h : mapSub m1 m2 = true) {k v : String}
    (hm : (k, v) ∈ m1) : mapLookup m2 k = some v := by
  have := List.all_eq_true.mp h (k, v) hm
  simpa using this

theorem mapEq_lookup {m1 m2 : StrMap} (h : mapEq m1 m2 = true) (k : String) :
    mapLookup m1 k = mapLookup m2 k := by
  have hsplit : mapSub m1 m2 = true ∧ mapSub m2 m1 = true := by
    have h' := h
    unfold mapEq at h'
    rw [Bool.and_eq_true] at h'
    exact h'
  have h1 := hsplit.1
  have h2 := hsplit.2
  cases hx : mapLookup m1 k with
  | some v => exact (mapSub_lookup h1 (mem_of_mapLookup hx)).symm
  | none =>
    cases hy : mapLookup m2 k with
    | none => rfl
    | some w =>
      have := mapSub_lookup h2 (mem_of_mapLookup hy)
      rw [hx] at this
      exact absurd this (by simp)

theorem mapOEq_lookup {om1 om2 : Option StrMap} (h : mapOEq om1 om2 = true) (k : String) :
    olookup om1 k = olookup om2 k := by
  cases om1 with
  | none =>
    cases om2 with
    | none => rfl
    | some b => simp [mapOEq] at h
  | some a =>
    cases om2 with
    | none => simp [mapOEq] at h
    | some b =>
      simp only [mapOEq] at h
      simp [olookup, mapEq_lookup h k]

theorem mapOEq_false_of_lookup_ne {om1 om2 : Option StrMap} {k : String}
    (h : olookup om1 k ≠ olookup om2 k) : mapOEq om1 om2 = false := by
  cases hx : mapOEq om1 om2 with
  | false => rfl
  | true => exact absurd (mapOEq_lookup hx k) h

/-! ### Store lemmas -/

theorem findRun_replace {runs : List PipelineRun} {nsp name : String} {pr0 : PipelineRun}
    (hfind : findRun runs nsp name = some pr0) (pr : PipelineRun)
    (hns : pr.nsp = nsp) (hname : pr.name = name) :
    findRun (replaceRun runs pr) nsp name = some pr := by
  induction runs with
  | nil => simp [findRun] at hfind
  | cons r rest ih =>
    simp only [replaceRun, List.map_cons]
    by_cases hmatch : (r.nsp == nsp && r.name == name) = true
    · have hm2 : (r.nsp == pr.nsp && r.name == pr.name) = true := by
        rw [hns, hname]
        exact hmatch
      have hp : (pr.nsp == nsp && pr.name == name) = true := by
        rw [hns, hname]
        simp
      rw [if_pos hm2]
      unfold findRun
      exact @List.find?_cons_of_pos _ (fun q => q.nsp == nsp && q.name == name) pr _ hp
    · have hm2 : ¬(r.nsp == pr.nsp && r.name == pr.name) = true := by
        rw [hns, hname]
        exact hmatch
      rw [if_neg hm2]
      unfold findRun at hfind ⊢
      rw [@List.find?_cons_of_neg _ (fun q => q.nsp == nsp && q.name == name) r _ hmatch] at hfind
      rw [@List.find?_cons_of_neg _ (fun q => q.nsp == nsp && q.name == name) r _ hmatch]
      exact ih hfind

theorem getRun_updateRunObj {env : Env} {cl : Cluster} {nsp name : String} {pr0 : PipelineRun}
    (hget : getRun cl nsp name = some pr0) (pr : PipelineRun)
    (hns : pr.nsp = nsp) (hname : pr.name = name)
    (hnc : env.metaConflict cl.metaAttempts = false) :
    getRun (updateRunObj env cl pr).1 nsp name = some pr := by
  simp only [updateRunObj, hnc, if_false, Bool.false_eq_true, getRun]
  exact findRun_replace hget pr hns hname

/-! ### Trace-shape lemmas -/

theorem updateRunObj_trace (env : Env) (cl : Cluster) (pr : PipelineRun) :
    (updateRunObj env cl pr).2.2 = [] ∨ (updateRunObj env cl pr).2.2 = [TraceEv.metaWrite] := by
  unfold updateRunObj
  by_cases h : env.metaConflict cl.metaAttempts = true
  · simp [h]
  · simp [Bool.not_eq_true _ ▸ h]

theorem uLA_trace (env : Env) (cl : Cluster) (pr : PipelineRun) :
    (Reconciler.updateLabelsAndAnnotations env cl pr).2.2 = [] ∨
    (Reconciler.updateLabelsAndAnnotations env cl pr).2.2 = [TraceEv.metaWrite] := by
  unfold Reconciler.updateLabelsAndAnnotations
  cases getRun cl pr.nsp pr.name with
  | none => simp
  | some prToUpdate =>
    by_cases hc : (mapOEq pr.labels prToUpdate.labels && mapOEq pr.annotations prToUpdate.annotations) = true
    · simp [hc]
    · simp only [Bool.not_eq_true] at hc
      simp only [hc, if_false, Bool.false_eq_true]
      exact updateRunObj_trace env cl _

theorem updateStatusBody_trace (env : Env) (d : PipelineRunStatus) (nsp name : String)
    (cl : Cluster) : ∀ e ∈ (updateStatusBody env d nsp name cl).2.2, e = TraceEv.statusWrite := by
  unfold updateStatusBody
  cases getRun cl nsp name with
  | none => simp
  | some prToUpdate =>
    by_cases hc : d = prToUpdate.status
    · simp [hc]
    · simp only [hc, if_false]
      unfold updateStatusObj
      by_cases h2 : env.statusConflict cl.statusAttempts = true
      · simp [h2]
      · simp [Bool.not_eq_true _ ▸ h2]

theorem retryOnConflict_trace (p : TraceEv → Prop)
    (f : Cluster → Cluster × Option GoError × List TraceEv)
    (hf : ∀ cl, ∀ e ∈ (f cl).2.2, p e) :
    ∀ n cl, ∀ e ∈ (retryOnConflict n f cl).2.2, p e := by
  intro n
  induction n with
  | zero =>
    intro cl e he
    simp [retryOnConflict] at he
  | succ n ih =>
    intro cl e he
    unfold retryOnConflict at he
    revert he
    match hfc : f cl with
    | (cl2, none, t) =>
      intro he
      exact hf cl e (by rw [hfc]; exact he)
    | (cl2, some GoError.conflict, t) =>
      match n with
      | 0 =>
        intro he
        exact hf cl e (by rw [hfc]; exact he)
      | m + 1 =>
        intro he
        simp only [List.mem_append] at he
        cases he with
        | inl h1 => exact hf cl e (by rw [hfc]; exact h1)
        | inr h2 => exact ih cl2 e h2
    | (cl2, some GoError.notFound, t) =>
      intro he
      exact hf cl e (by rw [hfc]; exact he)
    | (cl2, some (GoError.other m'), t) =>
      intro he
      exact hf cl e (by rw [hfc]; exact he)

theorem updateStatus_trace (env : Env) (cl : Cluster) (d : PipelineRunStatus) (nsp name : String) :
    ∀ e ∈ (Reconciler.updateStatus env cl d nsp name).2.2, e = TraceEv.statusWrite := by
  unfold Reconciler.updateStatus
  exact retryOnConflict_trace _ _ (fun cl' => updateStatusBody_trace env d nsp name cl') _ cl

theorem gprr_shape (env : Env) (dpn pn : String) (pr : PipelineRun) :
    (Reconciler.getPipelineRunResult env dpn pn pr).2 = [] ∨
    ∃ rid, (Reconciler.getPipelineRunResult env dpn pn pr).2 = [TraceEv.fetchResult rid] := by
  unfold Reconciler.getPipelineRunResult
  cases pr.getPipelineRunID with
  | none => simp
  | some rid =>
    cases hscm : getSCMRefName pr.spec with
    | error e => simp
    | ok b =>
      right
      exact ⟨rid, rfl⟩

theorem gpn_shape (env : Env) (dpn pn : String) (pr : PipelineRun) :
    (Reconciler.getPipelineNodes env dpn pn pr).2 = [] ∨
    ∃ rid, (Reconciler.getPipelineNodes env dpn pn pr).2 = [TraceEv.fetchStages rid] := by
  unfold Reconciler.getPipelineNodes
  cases pr.getPipelineRunID with
  | none => simp
  | some rid =>
    cases hscm : getSCMRefName pr.spec with
    | error e => simp
    | ok b =>
      right
      exact ⟨rid, rfl⟩

theorem trig_shape (env : Env) (dpn pn : String) (spec : PipelineRunSpec) :
    (Reconciler.triggerJenkinsJob env dpn pn spec).2 = [] ∨
    ∃ br, (Reconciler.triggerJenkinsJob env dpn pn spec).2 = [TraceEv.triggerCall [dpn, pn] br] := by
  unfold Reconciler.triggerJenkinsJob
  cases hscm : getSCMRefName spec with
  | error e => simp
  | ok b =>
    right
    exact ⟨b, rfl⟩

theorem djjh_shape (env : Env) (pr : PipelineRun) :
    (Reconciler.deleteJenkinsJobHistory env pr).2 = [] ∨
    ∃ j b, (Reconciler.deleteJenkinsJobHistory env pr).2 = [TraceEv.deleteHistoryCall j b] := by
  unfold Reconciler.deleteJenkinsJobHistory
  by_cases h : getJenkinsBuildNumber pr < 0
  · simp [h]
  · simp only [h, if_false]
    cases pr.spec.pipelineRef with
    | none => simp
    | some ref =>
      cases hd : env.deleteHistory (jobPath pr.nsp ref.name) (getJenkinsBuildNumber pr) with
      | none =>
        right
        exact ⟨jobPath pr.nsp ref.name, getJenkinsBuildNumber pr, by simp [hd]⟩
      | some e =>
        by_cases hm : strContains (errMsg e) notFoundResourcesText = true
        · right
          exact ⟨jobPath pr.nsp ref.name, getJenkinsBuildNumber pr, by simp [hd, hm]⟩
        · right
          exact ⟨jobPath pr.nsp ref.name, getJenkinsBuildNumber pr, by simp [hd, hm]⟩

/-! ### Write-ordering machinery -/

theorem noMeta_of_no_meta {b : List TraceEv} (h : TraceEv.metaWrite ∉ b) :
    noMetaAfterStatus b = true := by
  induction b with
  | nil => rfl
  | cons x rest ih =>
    have hx : x ≠ TraceEv.metaWrite := fun hc => h (hc ▸ List.mem_cons_self x rest)
    have hrest : TraceEv.metaWrite ∉ rest := fun hc => h (List.mem_cons_of_mem _ hc)
    cases x with
    | statusWrite =>
      have hcont : rest.contains TraceEv.metaWrite = false := by
        rw [← Bool.not_eq_true]
        intro hc
        exact hrest (List.elem_iff.mp hc)
      have hres := ih hrest
      simp only [noMetaAfterStatus, Bool.and_eq_true, Bool.not_eq_true']
      refine ⟨hcont, hres⟩
    | metaWrite => exact absurd rfl hx
    | triggerCall ps br => simpa [noMetaAfterStatus] using ih hrest
    | fetchResult r => simpa [noMetaAfterStatus] using ih hrest
    | fetchStages r => simpa [noMetaAfterStatus] using ih hrest
    | deleteHistoryCall j n => simpa [noMetaAfterStatus] using ih hrest
    | listRunsCall => simpa [noMetaAfterStatus] using ih hrest
    | createWrite => simpa [noMetaAfterStatus] using ih hrest

theorem noMeta_of_split (a b : List TraceEv) (hsa : TraceEv.statusWrite ∉ a)
    (hmb : TraceEv.metaWrite ∉ b) : noMetaAfterStatus (a ++ b) = true := by
  induction a with
  | nil => exact noMeta_of_no_meta hmb
  | cons x rest ih =>
    have hx : x ≠ TraceEv.statusWrite := fun hc => hsa (hc ▸ List.mem_cons_self x rest)
    have hrest : TraceEv.statusWrite ∉ rest := fun hc => hsa (List.mem_cons_of_mem _ hc)
    cases x with
    | statusWrite => exact absurd rfl hx
    | metaWrite => simpa [noMetaAfterStatus] using ih hrest
    | triggerCall ps br => simpa [noMetaAfterStatus] using ih hrest
    | fetchResult r => simpa [noMetaAfterStatus] using ih hrest
    | fetchStages r => simpa [noMetaAfterStatus] using ih hrest
    | deleteHistoryCall j n => simpa [noMetaAfterStatus] using ih hrest
    | listRunsCall => simpa [noMetaAfterStatus] using ih hrest
    | createWrite => simpa [noMetaAfterStatus] using ih hrest

theorem firstIdx_order {t : List TraceEv} (hno : noMetaAfterStatus t = true)
    (hm : TraceEv.metaWrite ∈ t) (hs : TraceEv.statusWrite ∈ t) :
    firstIdx TraceEv.metaWrite t < firstIdx TraceEv.statusWrite t := by
  induction t with
  | nil => cases hm
  | cons x rest ih =>
    cases hxm : x == TraceEv.metaWrite with
    | true =>
      have hxs : (x == TraceEv.statusWrite) = false := by
        have := beq_iff_eq.mp hxm
        rw [this]
        decide
      simp only [firstIdx, hxm, hxs, if_true, if_false, Bool.false_eq_true]
      exact Nat.succ_pos _
    | false =>
      cases hxs : x == TraceEv.statusWrite with
      | true =>
        have hxeq := beq_iff_eq.mp hxs
        rw [hxeq] at hno
        simp only [noMetaAfterStatus, Bool.and_eq_true, Bool.not_eq_true'] at hno
        have hmr : TraceEv.metaWrite ∈ rest := by
          cases hm with
          | head => rw [hxeq] at hxm; exact absurd hxm (by decide)
          | tail _ h => exact h
        have hcontra : rest.contains TraceEv.metaWrite = true := List.elem_iff.mpr hmr
        rw [hno.1] at hcontra
        exact Bool.noConfusion hcontra
      | false =>
        have hmr : TraceEv.metaWrite ∈ rest := by
          cases hm with
          | head => simp at hxm
          | tail _ h => exact h
        have hsr : TraceEv.statusWrite ∈ rest := by
          cases hs with
          | head => simp at hxs
          | tail _ h => exact h
        have hnor : noMetaAfterStatus rest = true := by
          cases x with
          | statusWrite => simp at hxs
          | metaWrite => simpa [noMetaAfterStatus] using hno
          | triggerCall ps br => simpa [noMetaAfterStatus] using hno
          | fetchResult r => simpa [noMetaAfterStatus] using hno
          | fetchStages r => simpa [noMetaAfterStatus] using hno
          | deleteHistoryCall j n => simpa [noMetaAfterStatus] using hno
          | listRunsCall => simpa [noMetaAfterStatus] using hno
          | createWrite => simpa [noMetaAfterStatus] using hno
        simp only [firstIdx, hxm, hxs, if_false, Bool.false_eq_true]
        exact Nat.succ_lt_succ (ih hnor hmr hsr)

theorem not_mem_append_ev {x : TraceEv} {a b : List TraceEv} (ha : x ∉ a) (hb : x ∉ b) :
    x ∉ a ++ b :=
  fun hc => (List.mem_append.mp hc).elim ha hb

theorem noMeta_of_no_status {t : List TraceEv} (h : TraceEv.statusWrite ∉ t) :
    noMetaAfterStatus t = true := by
  have := noMeta_of_split t [] h (by simp)
  simpa using this

theorem uLA_trace_of_eq {env : Env} {cl : Cluster} {pr : PipelineRun} {cl2 : Cluster}
    {e : Option GoError} {t : List TraceEv}
    (h : Reconciler.updateLabelsAndAnnotations env cl pr = (cl2, e, t)) :
    t = [] ∨ t = [TraceEv.metaWrite] := by
  have hres := uLA_trace env cl pr
  rw [h] at hres
  exact hres

theorem updateStatus_trace_of_eq {env : Env} {cl : Cluster} {d : PipelineRunStatus}
    {nsp name : String} {cl2 : Cluster} {e : Option GoError} {t : List TraceEv}
    (h : Reconciler.updateStatus env cl d nsp name = (cl2, e, t)) :
    ∀ x ∈ t, x = TraceEv.statusWrite := by
  have hres := updateStatus_trace env cl d nsp name
  rw [h] at hres
  exact hres

theorem reconcileStarted_split (env : Env) (cl : Cluster) (reqNs reqName nsName pName : String)
    (pr : PipelineRun) :
    ∃ a b, (Reconciler.reconcileStarted env cl reqNs reqName nsName pName pr).2 = a ++ b ∧
      TraceEv.statusWrite ∉ a ∧ TraceEv.metaWrite ∉ b := by
  unfold Reconciler.reconcileStarted
  split
  next e t1 heq =>
    have hs := gprr_shape env nsName pName pr
    rw [heq] at hs
    have ht1 : TraceEv.statusWrite ∉ t1 := by
      rcases hs with h | ⟨rid, h⟩ <;> simp_all
    exact ⟨t1, [], by simp, ht1, by simp⟩
  next pipelineBuild t1 heq =>
    have hs := gprr_shape env nsName pName pr
    rw [heq] at hs
    have ht1 : TraceEv.statusWrite ∉ t1 := by
      rcases hs with h | ⟨rid, h⟩ <;> simp_all
    split
    next e t2 heq2 =>
      have hs2 := gpn_shape env nsName pName pr
      rw [heq2] at hs2
      have ht2 : TraceEv.statusWrite ∉ t2 := by
        rcases hs2 with h | ⟨rid, h⟩ <;> simp_all
      exact ⟨t1 ++ t2, [], by simp, not_mem_append_ev ht1 ht2, by simp⟩
    next prNodes t2 heq2 =>
      have hs2 := gpn_shape env nsName pName pr
      rw [heq2] at hs2
      have ht2 : TraceEv.statusWrite ∉ t2 := by
        rcases hs2 with h | ⟨rid, h⟩ <;> simp_all
      dsimp only []
      split
      next cl2 e t3 heq3 =>
        have hs3 := uLA_trace_of_eq heq3
        have ht3 : TraceEv.statusWrite ∉ t3 := by
          rcases hs3 with h | h <;> simp_all
        exact ⟨t1 ++ t2 ++ t3, [], by simp,
          not_mem_append_ev (not_mem_append_ev ht1 ht2) ht3, by simp⟩
      next cl2 t3 heq3 =>
        have hs3 := uLA_trace_of_eq heq3
        have ht3 : TraceEv.statusWrite ∉ t3 := by
          rcases hs3 with h | h <;> simp_all
        split
        next cl3 e t4 heq4 =>
          have hs4 := updateStatus_trace_of_eq heq4
          have ht4 : TraceEv.metaWrite ∉ t4 := by
            intro hc
            have := hs4 _ hc
            simp at this
          refine ⟨t1 ++ t2 ++ t3, t4, by simp, ?_, ht4⟩
          exact not_mem_append_ev (not_mem_append_ev ht1 ht2) ht3
        next cl3 t4 heq4 =>
          have hs4 := updateStatus_trace_of_eq heq4
          have ht4 : TraceEv.metaWrite ∉ t4 := by
            intro hc
            have := hs4 _ hc
            simp at this
          refine ⟨t1 ++ t2 ++ t3, t4, by simp, ?_, ht4⟩
          exact not_mem_append_ev (not_mem_append_ev ht1 ht2) ht3

theorem reconcileNotStarted_split (env : Env) (cl : Cluster) (reqNs reqName nsName pName : String)
    (pr : PipelineRun) :
    ∃ a b, (Reconciler.reconcileNotStarted env cl reqNs reqName nsName pName pr).2 = a ++ b ∧
      TraceEv.statusWrite ∉ a ∧ TraceEv.metaWrite ∉ b := by
  unfold Reconciler.reconcileNotStarted
  split
  next e t1 heq =>
    have hs := trig_shape env nsName pName pr.spec
    rw [heq] at hs
    have ht1 : TraceEv.statusWrite ∉ t1 := by
      rcases hs with h | ⟨br, h⟩ <;> simp_all
    exact ⟨t1, [], by simp, ht1, by simp⟩
  next pipelineBuild t1 heq =>
    have hs := trig_shape env nsName pName pr.spec
    rw [heq] at hs
    have ht1 : TraceEv.statusWrite ∉ t1 := by
      rcases hs with h | ⟨br, h⟩ <;> simp_all
    dsimp only []
    split
    next cl2 e t2 heq2 =>
      have hs2 := uLA_trace_of_eq heq2
      have ht2 : TraceEv.statusWrite ∉ t2 := by
        rcases hs2 with h | h <;> simp_all
      exact ⟨t1 ++ t2, [], by simp, not_mem_append_ev ht1 ht2, by simp⟩
    next cl2 t2 heq2 =>
      have hs2 := uLA_trace_of_eq heq2
      have ht2 : TraceEv.statusWrite ∉ t2 := by
        rcases hs2 with h | h <;> simp_all
      split
      next cl3 e t3 heq3 =>
        have hs3 := updateStatus_trace_of_eq heq3
        have ht3 : TraceEv.metaWrite ∉ t3 := by
          intro hc
          have := hs3 _ hc
          simp at this
        exact ⟨t1 ++ t2, t3, by simp, not_mem_append_ev ht1 ht2, ht3⟩
      next cl3 t3 heq3 =>
        have hs3 := updateStatus_trace_of_eq heq3
        have ht3 : TraceEv.metaWrite ∉ t3 := by
          intro hc
          have := hs3 _ hc
          simp at this
        exact ⟨t1 ++ t2, t3, by simp, not_mem_append_ev ht1 ht2, ht3⟩

theorem makePipelineRunOrphan_split (env : Env) (cl : Cluster) (pr : PipelineRun) :
    ∃ a b, (Reconciler.makePipelineRunOrphan env cl pr).2.2 = a ++ b ∧
      TraceEv.statusWrite ∉ a ∧ TraceEv.metaWrite ∉ b := by
  unfold Reconciler.makePipelineRunOrphan
  dsimp only []
  split
  next cl2 e t heq =>
    have hs := uLA_trace_of_eq heq
    have ht : TraceEv.statusWrite ∉ t := by
      rcases hs with h | h <;> simp_all
    exact ⟨t, [], by simp, ht, by simp⟩
  next cl2 t heq =>
    have hs := uLA_trace_of_eq heq
    have ht : TraceEv.statusWrite ∉ t := by
      rcases hs with h | h <;> simp_all
    have hs4 := updateStatus_trace env cl2 pr.status pr.nsp pr.name
    have ht4 : TraceEv.metaWrite ∉ (Reconciler.updateStatus env cl2 pr.status pr.nsp pr.name).2.2 := by
      intro hc
      have := hs4 _ hc
      simp at this
    exact ⟨t, _, by simp, ht, ht4⟩

theorem findRun_some_key {runs : List PipelineRun} {nsp name : String} {r : PipelineRun}
    (h : findRun runs nsp name = some r) : r.nsp = nsp ∧ r.name = name := by
  have hp := List.find?_some h
  rw [Bool.and_eq_true] at hp
  exact ⟨beq_iff_eq.mp hp.1, beq_iff_eq.mp hp.2⟩

theorem findPipeline_some_key {ps : List Pipeline} {nsp name : String} {p : Pipeline}
    (h : findPipeline ps nsp name = some p) : p.nsp = nsp ∧ p.name = name := by
  have hp := List.find?_some h
  rw [Bool.and_eq_true] at hp
  exact ⟨beq_iff_eq.mp hp.1, beq_iff_eq.mp hp.2⟩

theorem retryOnConflict_inv (P : Cluster → Prop)
    (f : Cluster → Cluster × Option GoError × List TraceEv)
    (hf : ∀ cl, P cl → P (f cl).1) :
    ∀ n cl, P cl → P (retryOnConflict n f cl).1 := by
  intro n
  induction n with
  | zero =>
    intro cl hP
    simpa [retryOnConflict] using hP
  | succ n ih =>
    intro cl hP
    unfold retryOnConflict
    match hfc : f cl with
    | (cl2, none, t) =>
      have := hf cl hP
      rw [hfc] at this
      exact this
    | (cl2, some GoError.conflict, t) =>
      have h2 : P cl2 := by
        have := hf cl hP
        rw [hfc] at this
        exact this
      match n with
      | 0 => exact h2
      | m + 1 => exact ih cl2 h2
    | (cl2, some GoError.notFound, t) =>
      have := hf cl hP
      rw [hfc] at this
      exact this
    | (cl2, some (GoError.other msg), t) =>
      have := hf cl hP
      rw [hfc] at this
      exact this

theorem storedRunID_of_replace {cl' cl : Cluster} {nsp name : String} {pr0 pr : PipelineRun}
    (hruns : cl'.runs = replaceRun cl.runs pr)
    (hget : getRun cl nsp name = some pr0) (hns : pr.nsp = nsp) (hname : pr.name = name) :
    storedRunID cl' nsp name = olookup pr.annotations JenkinsPipelineRunIDKey := by
  unfold storedRunID getRun
  rw [hruns, findRun_replace hget pr hns hname]
  rfl

theorem updateStatusBody_runID (env : Env) (d : PipelineRunStatus) (nsp name : String)
    (rid : String) (cl : Cluster) (h : storedRunID cl nsp name = some rid) :
    storedRunID (updateStatusBody env d nsp name cl).1 nsp name = some rid := by
  unfold updateStatusBody
  match hget : getRun cl nsp name with
  | none => exact h
  | some prToUpdate =>
    by_cases heq : d = prToUpdate.status
    · simp only [heq, if_true]
      exact h
    · simp only [heq, if_false]
      unfold updateStatusObj
      by_cases hc : env.statusConflict cl.statusAttempts = true
      · simp only [hc, if_true]
        exact h
      · simp only [Bool.not_eq_true] at hc
        simp only [hc, Bool.false_eq_true, if_false]
        have hkey := findRun_some_key hget
        rw [storedRunID_of_replace rfl hget (by exact hkey.1) (by exact hkey.2)]
        unfold storedRunID at h
        rw [hget] at h
        simpa [PipelineRun.getPipelineRunID] using h

theorem updateStatus_runID (env : Env) (cl : Cluster) (d : PipelineRunStatus)
    (nsp name rid : String) (h : storedRunID cl nsp name = some rid) :
    storedRunID (Reconciler.updateStatus env cl d nsp name).1 nsp name = some rid := by
  unfold Reconciler.updateStatus
  exact retryOnConflict_inv (fun c => storedRunID c nsp name = some rid) _
    (fun c hc => updateStatusBody_runID env d nsp name rid c hc) defaultRetrySteps cl h

theorem uLA_runID {env : Env} {cl : Cluster} {pr : PipelineRun} {cl2 : Cluster}
    {e : Option GoError} {t : List TraceEv} {rid : String}
    (h : Reconciler.updateLabelsAndAnnotations env cl pr = (cl2, e, t))
    (hpr : olookup pr.annotations JenkinsPipelineRunIDKey = some rid)
    (hstored : storedRunID cl pr.nsp pr.name = some rid) :
    storedRunID cl2 pr.nsp pr.name = some rid := by
  unfold Reconciler.updateLabelsAndAnnotations at h
  match hget : getRun cl pr.nsp pr.name with
  | none =>
    rw [hget] at h
    dsimp only [] at h
    cases h
    exact hstored
  | some prToUpdate =>
    rw [hget] at h
    dsimp only [] at h
    by_cases hc : (mapOEq pr.labels prToUpdate.labels &&
        mapOEq pr.annotations prToUpdate.annotations) = true
    · rw [if_pos hc] at h
      cases h
      exact hstored
    · rw [if_neg hc] at h
      unfold updateRunObj at h
      by_cases hmc : env.metaConflict cl.metaAttempts = true
      · rw [if_pos hmc] at h
        cases h
        exact hstored
      · rw [if_neg hmc] at h
        cases h
        have hkey := findRun_some_key hget
        rw [storedRunID_of_replace rfl hget (by exact hkey.1) (by exact hkey.2)]
        exact hpr

theorem hasStarted_labels (pr : PipelineRun) (l : Option StrMap) :
    PipelineRun.hasStarted { pr with labels := l } = PipelineRun.hasStarted pr := rfl

theorem olookup_getD (m : Option StrMap) (k : String) :
    mapLookup (m.getD []) k = olookup m k := by
  cases m with
  | none => rfl
  | some a => rfl

/-- Reduction of the common prefix of `Reconciler.Reconcile` for a live,
buildable run with a resolvable pipeline reference: the pass routes to the
polling branch or to the trigger branch, after deriving the labels. -/
theorem reconcile_routing (env : Env) (cl : Cluster) (reqNs reqName : String)
    (pr : PipelineRun) (ref : ObjRef) (pipeline : Pipeline)
    (hget : getRun cl reqNs reqName = some pr)
    (hns : pr.nsp = reqNs)
    (hdel : pr.deletionTimestamp = none)
    (hdis : pr.disabled = false)
    (href : pr.spec.pipelineRef = some ref)
    (hrefname : (ref.name == "") = false)
    (hpipe : getPipeline cl reqNs ref.name = some pipeline) :
    ∃ labels2,
      Reconciler.Reconcile env cl reqNs reqName =
        if PipelineRun.hasStarted pr then
          Reconciler.reconcileStarted env cl reqNs reqName pipeline.nsp pipeline.name
            { pr with labels := some labels2 }
        else
          Reconciler.reconcileNotStarted env cl reqNs reqName pipeline.nsp pipeline.name
            { pr with labels := some labels2 } := by
  unfold Reconciler.Reconcile
  rw [hget]
  dsimp only []
  rw [hdel]
  have hb : (!pr.buildable) = false := by
    simp [PipelineRun.buildable, hdis]
  simp only [Option.isSome_none, Bool.false_eq_true, if_false, hb]
  rw [href]
  dsimp only []
  simp only [hrefname, Bool.false_eq_true, if_false]
  rw [hns, hpipe]
  dsimp only []
  rw [hasStarted_labels]
  exact ⟨_, rfl⟩

theorem retryOnConflict_first_ok {f : Cluster → Cluster × Option GoError × List TraceEv}
    {cl cl2 : Cluster} {t : List TraceEv} (h : f cl = (cl2, none, t)) :
    retryOnConflict defaultRetrySteps f cl = (cl2, none, t) := by
  have hr : retryOnConflict (4 + 1) f cl = (cl2, none, t) := by
    unfold retryOnConflict
    rw [h]
  exact hr

theorem updateStatus_succeeds (env : Env) (cl : Cluster) (d : PipelineRunStatus)
    (nsp name : String) (pr0 : PipelineRun)
    (hget : getRun cl nsp name = some pr0)
    (hnoSC : env.statusConflict cl.statusAttempts = false) :
    (d = pr0.status → Reconciler.updateStatus env cl d nsp name = (cl, none, [])) ∧
    (d ≠ pr0.status → ∃ cl3, Reconciler.updateStatus env cl d nsp name =
        (cl3, none, [TraceEv.statusWrite]) ∧
      getRun cl3 nsp name = some { pr0 with status := d } ∧
      cl3.pipelines = cl.pipelines ∧ cl3.metaAttempts = cl.metaAttempts ∧
      cl3.runs = replaceRun cl.runs { pr0 with status := d }) := by
  have hkey := findRun_some_key hget
  constructor
  · intro heq
    have hbody : updateStatusBody env d nsp name cl = (cl, none, []) := by
      unfold updateStatusBody
      rw [hget]
      dsimp only []
      rw [if_pos heq]
    unfold Reconciler.updateStatus
    exact retryOnConflict_first_ok hbody
  · intro hne
    have hbody : updateStatusBody env d nsp name cl = ({ cl with runs := replaceRun cl.runs { pr0 with status := d }, statusAttempts := cl.statusAttempts + 1 }, none, [TraceEv.statusWrite]) := by
      unfold updateStatusBody
      rw [hget]
      dsimp only []
      rw [if_neg hne]
      unfold updateStatusObj
      rw [hnoSC]
      simp
    refine ⟨{ cl with runs := replaceRun cl.runs { pr0 with status := d }, statusAttempts := cl.statusAttempts + 1 }, ?_, ?_, rfl, rfl, rfl⟩
    · unfold Reconciler.updateStatus
      exact retryOnConflict_first_ok hbody
    · exact findRun_replace hget _ (by exact hkey.1) (by exact hkey.2)

/-- Full specification of a successful trigger pass through
`Reconciler.reconcileNotStarted`: exactly one trigger call, the external run
identifier persisted into the stored record's annotations, start/update
timestamps set, the phase untouched, and a 1-second requeue. -/
theorem reconcileNotStarted_spec (env : Env) (cl : Cluster) (reqNs reqName nsName pName : String)
    (pr1 pr0 : PipelineRun) (branch : String) (jrun : JobRun)
    (hget : getRun cl reqNs reqName = some pr0)
    (hns1 : pr1.nsp = reqNs) (hname1 : pr1.name = reqName)
    (hst : pr1.status = pr0.status)
    (hol0 : olookup pr0.annotations JenkinsPipelineRunIDKey = none)
    (hscm : getSCMRefName pr1.spec = Except.ok branch)
    (hbuild : env.build [nsName, pName] (parameterConverter pr1.spec.parameters) branch =
      Except.ok jrun)
    (hnoMC : env.metaConflict cl.metaAttempts = false)
    (hnoSC : env.statusConflict cl.statusAttempts = false) :
    ∃ cl1 prF,
      (Reconciler.reconcileNotStarted env cl reqNs reqName nsName pName pr1).1 =
        some (cl1, ⟨1, none⟩) ∧
      countTrigger (Reconciler.reconcileNotStarted env cl reqNs reqName nsName pName pr1).2 = 1 ∧
      getRun cl1 reqNs reqName = some prF ∧
      prF.getPipelineRunID = some jrun.id ∧
      prF.nsp = pr0.nsp ∧ prF.name = pr0.name ∧
      prF.deletionTimestamp = pr0.deletionTimestamp ∧
      prF.disabled = pr0.disabled ∧
      prF.spec = pr0.spec ∧
      prF.status.phase = pr0.status.phase ∧
      prF.status.conditions = pr0.status.conditions ∧
      prF.status.startTime = some env.now ∧
      prF.status.updateTime = some env.now ∧
      cl1.pipelines = cl.pipelines := by
  have hkey := findRun_some_key hget
  unfold Reconciler.reconcileNotStarted Reconciler.triggerJenkinsJob
  rw [hscm]
  dsimp only []
  rw [hbuild]
  dsimp only []
  have holins : olookup (some (mapInsert (pr1.annotations.getD []) JenkinsPipelineRunIDKey jrun.id))
      JenkinsPipelineRunIDKey = some jrun.id := by
    simpa [olookup] using mapLookup_insert_self (pr1.annotations.getD []) JenkinsPipelineRunIDKey jrun.id
  have hcond : (mapOEq (some (mapInsert (pr1.annotations.getD []) JenkinsPipelineRunIDKey jrun.id))
      pr0.annotations) = false := by
    apply mapOEq_false_of_lookup_ne
    rw [holins, hol0]
    simp
  have huLA : Reconciler.updateLabelsAndAnnotations env cl { pr1 with annotations := some (mapInsert (pr1.annotations.getD []) JenkinsPipelineRunIDKey jrun.id) } = ({ cl with runs := replaceRun cl.runs { pr0 with labels := pr1.labels, annotations := some (mapInsert (pr1.annotations.getD []) JenkinsPipelineRunIDKey jrun.id), finalizers := if hasString pr0.finalizers PipelineRunFinalizerName then pr0.finalizers else pr0.finalizers ++ [PipelineRunFinalizerName] }, metaAttempts := cl.metaAttempts + 1 }, none, [TraceEv.metaWrite]) := by
    unfold Reconciler.updateLabelsAndAnnotations
    have hg2 : getRun cl ({ pr1 with annotations := some (mapInsert (pr1.annotations.getD []) JenkinsPipelineRunIDKey jrun.id) }).nsp ({ pr1 with annotations := some (mapInsert (pr1.annotations.getD []) JenkinsPipelineRunIDKey jrun.id) }).name = some pr0 := by
      dsimp only []
      rw [hns1, hname1]
      exact hget
    rw [hg2]
    dsimp only []
    rw [hcond, Bool.and_false]
    simp only [Bool.false_eq_true, if_false]
    unfold updateRunObj
    rw [hnoMC]
    simp
  rw [huLA]
  dsimp only []
  have hgetW : getRun { cl with runs := replaceRun cl.runs { pr0 with labels := pr1.labels, annotations := some (mapInsert (pr1.annotations.getD []) JenkinsPipelineRunIDKey jrun.id), finalizers := if hasString pr0.finalizers PipelineRunFinalizerName then pr0.finalizers else pr0.finalizers ++ [PipelineRunFinalizerName] }, metaAttempts := cl.metaAttempts + 1 } reqNs reqName = some { pr0 with labels := pr1.labels, annotations := some (mapInsert (pr1.annotations.getD []) JenkinsPipelineRunIDKey jrun.id), finalizers := if hasString pr0.finalizers PipelineRunFinalizerName then pr0.finalizers else pr0.finalizers ++ [PipelineRunFinalizerName] } := by
    exact findRun_replace hget _ (by exact hkey.1) (by exact hkey.2)
  by_cases hEq : ({ pr1.status with startTime := some env.now, updateTime := some env.now } :
      PipelineRunStatus) = pr0.status
  · have hUS1 := (updateStatus_succeeds env _ _ reqNs reqName _ hgetW (by exact hnoSC)).1 hEq
    dsimp only [] at hUS1
    split
    next cl3 e t3 hequs =>
      have hcomb := hequs.symm.trans hUS1
      simp at hcomb
    next cl3 t3 hequs =>
      have hcomb := hequs.symm.trans hUS1
      rw [Prod.ext_iff, Prod.ext_iff] at hcomb
      obtain ⟨hc1, _, hc3⟩ := hcomb
      dsimp only [] at hc1 hc3
      subst hc1
      subst hc3
      refine ⟨_, _, rfl, by simp [countTrigger, isTrigger], hgetW, ?_, rfl, rfl, rfl, rfl, rfl,
        rfl, rfl, ?_, ?_, rfl⟩
      · exact holins
      · exact (congrArg PipelineRunStatus.startTime hEq).symm
      · exact (congrArg PipelineRunStatus.updateTime hEq).symm
  · have hUS2 := (updateStatus_succeeds env _ _ reqNs reqName _ hgetW (by exact hnoSC)).2 hEq
    obtain ⟨cl3x, hq, hgetF, hpip, hmeta, hruns⟩ := hUS2
    dsimp only [] at hq hgetF
    split
    next cl3 e t3 hequs =>
      have hcomb := hequs.symm.trans hq
      simp at hcomb
    next cl3 t3 hequs =>
      have hcomb := hequs.symm.trans hq
      rw [Prod.ext_iff, Prod.ext_iff] at hcomb
      obtain ⟨hc1, _, hc3⟩ := hcomb
      dsimp only [] at hc1 hc3
      subst hc1
      subst hc3
      refine ⟨_, _, rfl, by simp [countTrigger, isTrigger], hgetF, ?_, rfl, rfl, rfl, rfl, rfl,
        ?_, ?_, rfl, rfl, ?_⟩
      · exact holins
      · dsimp only []
        exact congrArg PipelineRunStatus.phase hst
      · dsimp only []
        exact congrArg PipelineRunStatus.conditions hst
      · exact hpip

theorem countTrigger_append (a b : List TraceEv) :
    countTrigger (a ++ b) = countTrigger a + countTrigger b := by
  simp [countTrigger, List.countP_append]

theorem countTrigger_zero_of_all {t : List TraceEv} (h : ∀ e ∈ t, isTrigger e = false) :
    countTrigger t = 0 := by
  unfold countTrigger
  rw [List.countP_eq_zero]
  intro a ha
  simp [h a ha]

theorem updateStatus_runID_of_eq {env : Env} {cl : Cluster} {d : PipelineRunStatus}
    {nsp name : String} {cl3 : Cluster} {e : Option GoError} {t : List TraceEv} {rid : String}
    (heq : Reconciler.updateStatus env cl d nsp name = (cl3, e, t))
    (h : storedRunID cl nsp name = some rid) : storedRunID cl3 nsp name = some rid := by
  have hres := updateStatus_runID env cl d nsp name rid h
  rw [heq] at hres
  exact hres

/-- A polling pass never calls the trigger operation and never changes the
stored external run identifier. -/
theorem reconcileStarted_no_trigger (env : Env) (cl : Cluster)
    (reqNs reqName nsName pName : String) (pr1 pr0 : PipelineRun) (rid : String)
    (hget : getRun cl reqNs reqName = some pr0)
    (hns1 : pr1.nsp = reqNs) (hname1 : pr1.name = reqName)
    (hol1 : olookup pr1.annotations JenkinsPipelineRunIDKey = some rid)
    (hol0 : olookup pr0.annotations JenkinsPipelineRunIDKey = some rid) :
    countTrigger (Reconciler.reconcileStarted env cl reqNs reqName nsName pName pr1).2 = 0 ∧
    ∀ cl2 res,
      (Reconciler.reconcileStarted env cl reqNs reqName nsName pName pr1).1 = some (cl2, res) →
      storedRunID cl2 reqNs reqName = some rid := by
  have hstored0 : storedRunID cl reqNs reqName = some rid := by
    unfold storedRunID
    rw [hget]
    simpa [PipelineRun.getPipelineRunID] using hol0
  have hkeyNe1 : JenkinsPipelineRunIDKey ≠ JenkinsPipelineRunStagesStatusKey := by decide
  have hkeyNe2 : JenkinsPipelineRunIDKey ≠ JenkinsPipelineRunStatusKey := by decide
  have hol2 : ∀ x y : String,
      olookup (some (mapInsert (mapInsert (pr1.annotations.getD []) JenkinsPipelineRunStatusKey x)
        JenkinsPipelineRunStagesStatusKey y)) JenkinsPipelineRunIDKey = some rid := by
    intro x y
    unfold olookup
    rw [Option.some_bind, mapLookup_insert_ne _ _ _ _ hkeyNe1, mapLookup_insert_ne _ _ _ _ hkeyNe2,
      olookup_getD]
    exact hol1
  unfold Reconciler.reconcileStarted
  split
  next e t1 heq =>
    have hs := gprr_shape env nsName pName pr1
    rw [heq] at hs
    constructor
    · apply countTrigger_zero_of_all
      intro ev hev
      rcases hs with h | ⟨r, h⟩ <;> simp_all [isTrigger]
    · intro cl2 res hres
      cases hres
      exact hstored0
  next pipelineBuild t1 heq =>
    have hs := gprr_shape env nsName pName pr1
    rw [heq] at hs
    have ht1 : countTrigger t1 = 0 := by
      apply countTrigger_zero_of_all
      intro ev hev
      rcases hs with h | ⟨r, h⟩ <;> simp_all [isTrigger]
    split
    next e t2 heq2 =>
      have hs2 := gpn_shape env nsName pName pr1
      rw [heq2] at hs2
      have ht2 : countTrigger t2 = 0 := by
        apply countTrigger_zero_of_all
        intro ev hev
        rcases hs2 with h | ⟨r, h⟩ <;> simp_all [isTrigger]
      constructor
      · rw [countTrigger_append, ht1, ht2]
      · intro cl2 res hres
        cases hres
        exact hstored0
    next prNodes t2 heq2 =>
      have hs2 := gpn_shape env nsName pName pr1
      rw [heq2] at hs2
      have ht2 : countTrigger t2 = 0 := by
        apply countTrigger_zero_of_all
        intro ev hev
        rcases hs2 with h | ⟨r, h⟩ <;> simp_all [isTrigger]
      dsimp only []
      split
      next cl2 e t3 heq3 =>
        have hs3 := uLA_trace_of_eq heq3
        have ht3 : countTrigger t3 = 0 := by
          apply countTrigger_zero_of_all
          intro ev hev
          rcases hs3 with h | h <;> simp_all [isTrigger]
        have hrid : storedRunID cl2 reqNs reqName = some rid := by
          have := uLA_runID heq3 (by
            dsimp only []
            exact hol2 _ _) (by
            dsimp only []
            rw [hns1, hname1]
            exact hstored0)
          rw [hns1, hname1] at this
          exact this
        constructor
        · rw [countTrigger_append, countTrigger_append, ht1, ht2, ht3]
        · intro cl2x res hres
          cases hres
          exact hrid
      next cl2 t3 heq3 =>
        have hs3 := uLA_trace_of_eq heq3
        have ht3 : countTrigger t3 = 0 := by
          apply countTrigger_zero_of_all
          intro ev hev
          rcases hs3 with h | h <;> simp_all [isTrigger]
        have hrid : storedRunID cl2 reqNs reqName = some rid := by
          have := uLA_runID heq3 (by
            dsimp only []
            exact hol2 _ _) (by
            dsimp only []
            rw [hns1, hname1]
            exact hstored0)
          rw [hns1, hname1] at this
          exact this
        split
        next cl3 e t4 heq4 =>
          have hs4 := updateStatus_trace_of_eq heq4
          have ht4 : countTrigger t4 = 0 := by
            apply countTrigger_zero_of_all
            intro ev hev
            rw [hs4 ev hev]
            simp [isTrigger]
          have hrid3 : storedRunID cl3 reqNs reqName = some rid :=
            updateStatus_runID_of_eq heq4 hrid
          constructor
          · rw [countTrigger_append, countTrigger_append, countTrigger_append, ht1, ht2, ht3, ht4]
          · intro cl2x res hres
            cases hres
            exact hrid3
        next cl3 t4 heq4 =>
          have hs4 := updateStatus_trace_of_eq heq4
          have ht4 : countTrigger t4 = 0 := by
            apply countTrigger_zero_of_all
            intro ev hev
            rw [hs4 ev hev]
            simp [isTrigger]
          have hrid3 : storedRunID cl3 reqNs reqName = some rid :=
            updateStatus_runID_of_eq heq4 hrid
          constructor
          · rw [countTrigger_append, countTrigger_append, countTrigger_append, ht1, ht2, ht3, ht4]
          · intro cl2x res hres
            cases hres
            exact hrid3

theorem reconcile_noMetaAfterStatus (env : Env) (cl : Cluster) (reqNs reqName : String) :
    noMetaAfterStatus (Reconciler.Reconcile env cl reqNs reqName).2 = true := by
  unfold Reconciler.Reconcile
  split
  · rfl
  next pr heq =>
    split
    · -- deletion branch
      split
      next t heqd =>
        have hs := djjh_shape env pr
        rw [heqd] at hs
        apply noMeta_of_no_status
        rcases hs with h | ⟨j, b, h⟩ <;> simp_all
      next e t heqd =>
        have hs := djjh_shape env pr
        rw [heqd] at hs
        apply noMeta_of_no_status
        rcases hs with h | ⟨j, b, h⟩ <;> simp_all
      next t heqd =>
        have hs := djjh_shape env pr
        rw [heqd] at hs
        have ht : TraceEv.statusWrite ∉ t := by
          rcases hs with h | ⟨j, b, h⟩ <;> simp_all
        have hu := updateRunObj_trace env cl
          { pr with finalizers := removeString pr.finalizers PipelineRunFinalizerName }
        have ht2 : TraceEv.statusWrite ∉ (updateRunObj env cl
            { pr with finalizers := removeString pr.finalizers PipelineRunFinalizerName }).2.2 := by
          rcases hu with h | h <;> simp_all
        exact noMeta_of_no_status (not_mem_append_ev ht ht2)
    · split
      · -- not buildable
        rfl
      · split
        next =>
          -- nil pipeline reference: orphan
          obtain ⟨a, b, hab, hsa, hmb⟩ := makePipelineRunOrphan_split env cl pr
          rw [hab]
          exact noMeta_of_split a b hsa hmb
        next pipelineRef =>
          split
          · -- empty name: orphan
            obtain ⟨a, b, hab, hsa, hmb⟩ := makePipelineRunOrphan_split env cl pr
            rw [hab]
            exact noMeta_of_split a b hsa hmb
          · split
            · rfl
            next pipeline heqp =>
              dsimp only []
              split
              · -- started: polling
                obtain ⟨a, b, hab, hsa, hmb⟩ :=
                  reconcileStarted_split env cl reqNs reqName pipeline.nsp pipeline.name _
                rw [hab]
                exact noMeta_of_split a b hsa hmb
              · -- not started: trigger
                obtain ⟨a, b, hab, hsa, hmb⟩ :=
                  reconcileNotStarted_split env cl reqNs reqName pipeline.nsp pipeline.name _
                rw [hab]
                exact noMeta_of_split a b hsa hmb

/-! ### Claim theorems -/

/-- Claim C3: for every reconciliation pass on a single run that issues both
the annotations/labels write and the status write, the metadata write occurs
strictly before the status write in the pass's observable trace — in the
triggering pass as well as in every polling pass, for every environment and
store. -/
theorem claim_c3_meta_before_status (env : Env) (cl : Cluster) (reqNs reqName : String)
    (hm : TraceEv.metaWrite ∈ (Reconciler.Reconcile env cl reqNs reqName).2)
    (hs : TraceEv.statusWrite ∈ (Reconciler.Reconcile env cl reqNs reqName).2) :
    firstIdx TraceEv.metaWrite (Reconciler.Reconcile env cl reqNs reqName).2 <
    firstIdx TraceEv.statusWrite (Reconciler.Reconcile env cl reqNs reqName).2 :=
  firstIdx_order (reconcile_noMetaAfterStatus env cl reqNs reqName) hm hs

/-- Witness for C3: a concrete polling pass that writes both metadata and
status, with the metadata write first. -/
theorem claim_c3_meta_before_status_witness :
    TraceEv.metaWrite ∈ (Reconciler.Reconcile envHappy clStarted "demo" "run-2").2 ∧
    TraceEv.statusWrite ∈ (Reconciler.Reconcile envHappy clStarted "demo" "run-2").2 ∧
    firstIdx TraceEv.metaWrite (Reconciler.Reconcile envHappy clStarted "demo" "run-2").2 <
    firstIdx TraceEv.statusWrite (Reconciler.Reconcile envHappy clStarted "demo" "run-2").2 :=
  ⟨by decide, by decide,
    claim_c3_meta_before_status envHappy clStarted "demo" "run-2" (by decide) (by decide)⟩

/-- Claim C7: a run record with a multi-branch pipeline reference and an
absent or empty source-control reference name makes the pass return the
configuration error with no external CI call — on the trigger path and on
the polling path alike (the empty trace shows no engine call was made). -/
theorem claim_c7_multibranch_config_error (env : Env) (cl : Cluster) (reqNs reqName : String)
    (pr : PipelineRun) (ref : ObjRef) (pipeline : Pipeline)
    (hget : getRun cl reqNs reqName = some pr)
    (hns : pr.nsp = reqNs)
    (hdel : pr.deletionTimestamp = none)
    (hdis : pr.disabled = false)
    (href : pr.spec.pipelineRef = some ref)
    (hrefname : (ref.name == "") = false)
    (hpipe : getPipeline cl reqNs ref.name = some pipeline)
    (hmb : pr.spec.isMultiBranch = true)
    (hscm : pr.spec.scm = none ∨ ∃ s, pr.spec.scm = some s ∧ s.refName = "") :
    Reconciler.Reconcile env cl reqNs reqName =
      (some (cl, ⟨0, some (GoError.other scmRefErrText)⟩), []) := by
  obtain ⟨labels2, hroute⟩ :=
    reconcile_routing env cl reqNs reqName pr ref pipeline hget hns hdel hdis href hrefname hpipe
  rw [hroute]
  have hscmErr : getSCMRefName pr.spec = Except.error (GoError.other scmRefErrText) := by
    rcases hscm with h | ⟨s, hs, hrn⟩
    · simp [getSCMRefName, hmb, h]
    · simp [getSCMRefName, hmb, hs, hrn]
  by_cases hst : PipelineRun.hasStarted pr = true
  · rw [if_pos hst]
    unfold Reconciler.reconcileStarted Reconciler.getPipelineRunResult
    have hst2 : ({ pr with labels := some labels2 } : PipelineRun).getPipelineRunID.isSome = true :=
      hst
    obtain ⟨rid, hrid⟩ := Option.isSome_iff_exists.mp hst2
    rw [hrid]
    dsimp only []
    rw [hscmErr]
  · rw [if_neg hst]
    unfold Reconciler.reconcileNotStarted Reconciler.triggerJenkinsJob
    rw [hscmErr]

/-- Witness for C7: the polling-path instance — a started multi-branch
record without SCM — returns the configuration error with an empty trace. -/
theorem claim_c7_multibranch_config_error_witness :
    Reconciler.Reconcile envHappy clMBStarted "demo" "run-8" =
      (some (clMBStarted, ⟨0, some (GoError.other scmRefErrText)⟩), []) :=
  claim_c7_multibranch_config_error envHappy clMBStarted "demo" "run-8" prMBStarted
    { kind := "Pipeline", name := "pipeline-a", nsp := "demo" } pipeMB
    (by decide) (by decide) (by decide) (by decide) (by decide) (by decide) (by decide)
    (by decide) (Or.inl (by decide))

/-- Counterexample to claim C9 as stated: with the referenced pipeline
absent from the store, the pass returns success (no error) and no requeue —
the not-found is swallowed by ignore-not-found rather than surfaced. -/
theorem claim_c9_counterexample :
    getPipeline clMissX "demo" "missing" = none ∧
    Reconciler.Reconcile envHappy clMissX "demo" "run-9" =
      (some (clMissX, ⟨0, none⟩), []) := by
  constructor
  · decide
  · decide

/-- Claim C9 (amended): when a not-yet-started run record's referenced
pipeline definition cannot be found in the object store, the pass swallows
the not-found — it returns success with no error and schedules no requeue
(and makes no external call). -/
theorem claim_c9_amended (env : Env) (cl : Cluster) (reqNs reqName : String)
    (pr : PipelineRun) (ref : ObjRef)
    (hget : getRun cl reqNs reqName = some pr)
    (hns : pr.nsp = reqNs)
    (hdel : pr.deletionTimestamp = none)
    (hdis : pr.disabled = false)
    (href : pr.spec.pipelineRef = some ref)
    (hrefname : (ref.name == "") = false)
    (hpipe : getPipeline cl reqNs ref.name = none) :
    Reconciler.Reconcile env cl reqNs reqName = (some (cl, ⟨0, none⟩), []) := by
  unfold Reconciler.Reconcile
  rw [hget]
  dsimp only []
  rw [hdel]
  have hb : (!pr.buildable) = false := by
    simp [PipelineRun.buildable, hdis]
  simp only [Option.isSome_none, Bool.false_eq_true, if_false, hb]
  rw [href]
  dsimp only []
  simp only [hrefname, Bool.false_eq_true, if_false]
  rw [hns, hpipe]
  rfl

/-- Claim C1: reconciling a record with no external run identifier twice in
immediate succession triggers the engine exactly once on the first pass and
never on the second — the second pass observes the identifier annotation,
takes the polling branch, and the stored identifier is never reassigned. -/
theorem claim_c1_trigger_idempotent (env : Env) (cl : Cluster) (reqNs reqName : String)
    (pr : PipelineRun) (ref : ObjRef) (pipeline : Pipeline) (branch : String) (jrun : JobRun)
    (hget : getRun cl reqNs reqName = some pr)
    (hns : pr.nsp = reqNs) (hname : pr.name = reqName)
    (hdel : pr.deletionTimestamp = none)
    (hdis : pr.disabled = false)
    (href : pr.spec.pipelineRef = some ref)
    (hrefname : (ref.name == "") = false)
    (hpipe : getPipeline cl reqNs ref.name = some pipeline)
    (hnotStarted : pr.getPipelineRunID = none)
    (hscm : getSCMRefName pr.spec = Except.ok branch)
    (hbuild : env.build [pipeline.nsp, pipeline.name] (parameterConverter pr.spec.parameters)
      branch = Except.ok jrun)
    (hnoMC : ∀ k, env.metaConflict k = false)
    (hnoSC : ∀ k, env.statusConflict k = false) :
    countTrigger (Reconciler.Reconcile env cl reqNs reqName).2 = 1 ∧
    ∃ cl1, (Reconciler.Reconcile env cl reqNs reqName).1.map Prod.fst = some cl1 ∧
      storedRunID cl1 reqNs reqName = some jrun.id ∧
      countTrigger (Reconciler.Reconcile env cl1 reqNs reqName).2 = 0 ∧
      ∀ cl2 res, (Reconciler.Reconcile env cl1 reqNs reqName).1 = some (cl2, res) →
        storedRunID cl2 reqNs reqName = some jrun.id := by
  obtain ⟨labels2, hroute⟩ :=
    reconcile_routing env cl reqNs reqName pr ref pipeline hget hns hdel hdis href hrefname hpipe
  have hnotst : PipelineRun.hasStarted pr = false := by
    simp [PipelineRun.hasStarted, hnotStarted]
  rw [hnotst] at hroute
  simp only [Bool.false_eq_true, if_false] at hroute
  obtain ⟨cl1, prF, hres, hcount, hgetF, hrunid, hnspF, hnameF, hdelF, hdisF, hspecF,
    hphase, hconds, hstart, hupdate, hpips⟩ :=
    reconcileNotStarted_spec env cl reqNs reqName pipeline.nsp pipeline.name
      { pr with labels := some labels2 } pr branch jrun hget (by
        dsimp only []
        exact hns) (by
        dsimp only []
        exact hname) rfl hnotStarted hscm hbuild (hnoMC cl.metaAttempts) (hnoSC cl.statusAttempts)
  constructor
  · rw [hroute]
    exact hcount
  · refine ⟨cl1, ?_, ?_, ?_, ?_⟩
    · rw [hroute, hres]
      rfl
    · unfold storedRunID
      rw [hgetF, Option.some_bind, hrunid]
    · obtain ⟨labels2b, hroute2⟩ :=
        reconcile_routing env cl1 reqNs reqName prF ref pipeline hgetF
          (hnspF.trans hns) (hdelF.trans hdel) (hdisF.trans hdis)
          (hspecF ▸ href) hrefname (by
            unfold getPipeline
            rw [hpips]
            exact hpipe)
      have hstF : PipelineRun.hasStarted prF = true := by
        simp [PipelineRun.hasStarted, hrunid]
      rw [hstF] at hroute2
      simp only [if_true] at hroute2
      rw [hroute2]
      exact (reconcileStarted_no_trigger env cl1 reqNs reqName pipeline.nsp pipeline.name
        { prF with labels := some labels2b } prF jrun.id hgetF (by
          dsimp only []
          exact hnspF.trans hns) (by
          dsimp only []
          exact hnameF.trans hname) hrunid hrunid).1
    · obtain ⟨labels2b, hroute2⟩ :=
        reconcile_routing env cl1 reqNs reqName prF ref pipeline hgetF
          (hnspF.trans hns) (hdelF.trans hdel) (hdisF.trans hdis)
          (hspecF ▸ href) hrefname (by
            unfold getPipeline
            rw [hpips]
            exact hpipe)
      have hstF : PipelineRun.hasStarted prF = true := by
        simp [PipelineRun.hasStarted, hrunid]
      rw [hstF] at hroute2
      simp only [if_true] at hroute2
      rw [hroute2]
      exact (reconcileStarted_no_trigger env cl1 reqNs reqName pipeline.nsp pipeline.name
        { prF with labels := some labels2b } prF jrun.id hgetF (by
          dsimp only []
          exact hnspF.trans hns) (by
          dsimp only []
          exact hnameF.trans hname) hrunid hrunid).2

/-- Witness for C1 at the concrete `demo/pipeline-a` scenario. -/
theorem claim_c1_trigger_idempotent_witness :
    countTrigger (Reconciler.Reconcile envHappy clDemo "demo" "run-1").2 = 1 ∧
    ∃ cl1, (Reconciler.Reconcile envHappy clDemo "demo" "run-1").1.map Prod.fst = some cl1 ∧
      storedRunID cl1 "demo" "run-1" = some "7" ∧
      countTrigger (Reconciler.Reconcile envHappy cl1 "demo" "run-1").2 = 0 ∧
      ∀ cl2 res, (Reconciler.Reconcile envHappy cl1 "demo" "run-1").1 = some (cl2, res) →
        storedRunID cl2 "demo" "run-1" = some "7" :=
  claim_c1_trigger_idempotent envHappy clDemo "demo" "run-1" prDemo
    { kind := "Pipeline", name := "pipeline-a", nsp := "demo" } pipeDemo "" run7
    rfl rfl rfl rfl rfl rfl rfl rfl rfl rfl rfl (fun _ => rfl) (fun _ => rfl)

/-- Counterexample to claim C6 as stated: in the concrete single-branch
scenario the pass persists identifier "7" and requeues after 1 second, but
the persisted phase is the unchanged empty phase, not `Running`. -/
theorem claim_c6_counterexample :
    ((Reconciler.Reconcile envHappy clDemo "demo" "run-1").1.map
      (fun x => (getRun x.1 "demo" "run-1").map
        (fun r => (r.getPipelineRunID, r.status.phase)))) = some (some (some "7", "")) ∧
    ((Reconciler.Reconcile envHappy clDemo "demo" "run-1").1.map (fun x => x.2)) =
      some ⟨1, none⟩ ∧
    "" ≠ RunningPhase :=
  ⟨by decide, by decide, by decide⟩

/-- Claim C6 (amended): for every not-yet-started run record whose trigger
call succeeds, the pass persists the returned external run identifier into
the annotations and sets start and update timestamps in the status — the
phase is left unchanged (it only becomes `Running` once a later polling pass
applies the remote state) — and returns a requeue of 1 time unit with no
error. -/
theorem claim_c6_trigger_persists (env : Env) (cl : Cluster) (reqNs reqName : String)
    (pr : PipelineRun) (ref : ObjRef) (pipeline : Pipeline) (branch : String) (jrun : JobRun)
    (hget : getRun cl reqNs reqName = some pr)
    (hns : pr.nsp = reqNs) (hname : pr.name = reqName)
    (hdel : pr.deletionTimestamp = none)
    (hdis : pr.disabled = false)
    (href : pr.spec.pipelineRef = some ref)
    (hrefname : (ref.name == "") = false)
    (hpipe : getPipeline cl reqNs ref.name = some pipeline)
    (hnotStarted : pr.getPipelineRunID = none)
    (hscm : getSCMRefName pr.spec = Except.ok branch)
    (hbuild : env.build [pipeline.nsp, pipeline.name] (parameterConverter pr.spec.parameters)
      branch = Except.ok jrun)
    (hnoMC : ∀ k, env.metaConflict k = false)
    (hnoSC : ∀ k, env.statusConflict k = false) :
    ∃ cl1 prF,
      (Reconciler.Reconcile env cl reqNs reqName).1 = some (cl1, ⟨1, none⟩) ∧
      getRun cl1 reqNs reqName = some prF ∧
      prF.getPipelineRunID = some jrun.id ∧
      prF.status.startTime = some env.now ∧
      prF.status.updateTime = some env.now ∧
      prF.status.phase = pr.status.phase := by
  obtain ⟨labels2, hroute⟩ :=
    reconcile_routing env cl reqNs reqName pr ref pipeline hget hns hdel hdis href hrefname hpipe
  have hnotst : PipelineRun.hasStarted pr = false := by
    simp [PipelineRun.hasStarted, hnotStarted]
  rw [hnotst] at hroute
  simp only [Bool.false_eq_true, if_false] at hroute
  obtain ⟨cl1, prF, hres, hcount, hgetF, hrunid, hnspF, hnameF, hdelF, hdisF, hspecF,
    hphase, hconds, hstart, hupdate, hpips⟩ :=
    reconcileNotStarted_spec env cl reqNs reqName pipeline.nsp pipeline.name
      { pr with labels := some labels2 } pr branch jrun hget (by
        dsimp only []
        exact hns) (by
        dsimp only []
        exact hname) rfl hnotStarted hscm hbuild (hnoMC cl.metaAttempts) (hnoSC cl.statusAttempts)
  refine ⟨cl1, prF, ?_, hgetF, hrunid, hstart, hupdate, hphase⟩
  rw [hroute]
  exact hres

/-- Witness for the amended C6 at the concrete scenario. -/
theorem claim_c6_trigger_persists_witness :
    ∃ cl1 prF,
      (Reconciler.Reconcile envHappy clDemo "demo" "run-1").1 = some (cl1, ⟨1, none⟩) ∧
      getRun cl1 "demo" "run-1" = some prF ∧
      prF.getPipelineRunID = some "7" ∧
      prF.status.startTime = some 100 ∧
      prF.status.updateTime = some 100 ∧
      prF.status.phase = prDemo.status.phase :=
  claim_c6_trigger_persists envHappy clDemo "demo" "run-1" prDemo
    { kind := "Pipeline", name := "pipeline-a", nsp := "demo" } pipeDemo "" run7
    rfl rfl rfl rfl rfl rfl rfl rfl rfl rfl rfl (fun _ => rfl) (fun _ => rfl)

theorem removeString_not_mem (l : List String) (s : String) : s ∉ removeString l s := by
  intro hmem
  have := (List.mem_filter.mp hmem).2
  simp at this

/-- Claim C8: a run record being deleted whose delete-history call answers
not-found is treated as success — the finalizer is removed, the record is
persisted, and no error is surfaced. -/
theorem claim_c8_delete_notfound (env : Env) (cl : Cluster) (reqNs reqName : String)
    (pr : PipelineRun) (ref : ObjRef) (bn : String) (num : Int) (derr : GoError)
    (hget : getRun cl reqNs reqName = some pr)
    (hns : pr.nsp = reqNs) (hname : pr.name = reqName)
    (hdelTS : pr.deletionTimestamp.isSome = true)
    (hbn : pr.getPipelineRunID = some bn)
    (hnum : goAtoi bn = some num)
    (hpos : ¬ num < 0)
    (href : pr.spec.pipelineRef = some ref)
    (hrsp : env.deleteHistory (jobPath pr.nsp ref.name) num = some derr)
    (hnf : strContains (errMsg derr) notFoundResourcesText = true)
    (hnoMC : env.metaConflict cl.metaAttempts = false) :
    ∃ cl1 prF,
      Reconciler.Reconcile env cl reqNs reqName = (some (cl1, ⟨0, none⟩),
        [TraceEv.deleteHistoryCall (jobPath pr.nsp ref.name) num, TraceEv.metaWrite]) ∧
      getRun cl1 reqNs reqName = some prF ∧
      prF.finalizers = removeString pr.finalizers PipelineRunFinalizerName ∧
      PipelineRunFinalizerName ∉ prF.finalizers := by
  have hgbn : getJenkinsBuildNumber pr = num := by
    unfold getJenkinsBuildNumber
    rw [hbn]
    dsimp only []
    rw [hnum]
  have hd : Reconciler.deleteJenkinsJobHistory env pr =
      (some none, [TraceEv.deleteHistoryCall (jobPath pr.nsp ref.name) num]) := by
    unfold Reconciler.deleteJenkinsJobHistory
    rw [hgbn, if_neg hpos, href]
    dsimp only []
    rw [hrsp]
    dsimp only []
    rw [hnf]
    simp
  unfold Reconciler.Reconcile
  rw [hget]
  dsimp only []
  rw [hdelTS]
  simp only [if_true]
  rw [hd]
  dsimp only []
  unfold updateRunObj
  rw [hnoMC]
  simp only [Bool.false_eq_true, if_false]
  refine ⟨_, _, rfl, findRun_replace hget _ (by exact hns) (by exact hname), rfl, ?_⟩
  exact removeString_not_mem pr.finalizers PipelineRunFinalizerName

/-- Witness for C8: the concrete record being deleted, with the Jenkins
not-found answer, loses its finalizer and surfaces no error. -/
theorem claim_c8_delete_notfound_witness :
    ∃ cl1 prF,
      Reconciler.Reconcile envDelNF clDel "demo" "run-3" = (some (cl1, ⟨0, none⟩),
        [TraceEv.deleteHistoryCall (jobPath prDel.nsp "pipeline-a") 7, TraceEv.metaWrite]) ∧
      getRun cl1 "demo" "run-3" = some prF ∧
      prF.finalizers = removeString prDel.finalizers PipelineRunFinalizerName ∧
      PipelineRunFinalizerName ∉ prF.finalizers :=
  claim_c8_delete_notfound envDelNF clDel "demo" "run-3" prDel
    { kind := "Pipeline", name := "pipeline-a", nsp := "demo" } "7" 7
    (GoError.other "unexpected status code: 404, response: not found resources")
    rfl rfl rfl rfl rfl rfl (by decide) rfl rfl (by decide) rfl

/-- Claim C5 (code-bug evidence): on a buildable record with no pipeline
reference, the pass reports success and labels the record as an orphan, yet
the persisted status gains no skip condition and keeps its empty phase — the
source computes the condition and the `Unknown` phase on a local copy but
then issues the status write for the unmodified original status. -/
theorem claim_c5_orphan_status_not_persisted :
    (Reconciler.Reconcile envHappy clOrphanX "demo" "run-4").1.map (fun x => x.2) =
      some ⟨0, none⟩ ∧
    ((Reconciler.Reconcile envHappy clOrphanX "demo" "run-4").1.map (fun x =>
      (getRun x.1 "demo" "run-4").map (fun r =>
        (r.status.conditions, r.status.phase, olookup r.labels OrphanLabelKey)))) =
      some (some ([], "", some "true")) ∧
    "" ≠ UnknownPhase ∧
    countEngine (Reconciler.Reconcile envHappy clOrphanX "demo" "run-4").2 = 0 :=
  ⟨by decide, by decide, by decide, by decide⟩

/-- Claim C10: constructing a bare run record is not total in the remote
branch payload — a non-nil, non-map branch value panics at the unchecked
type assertion, and a branch map without a "url" entry is silently
stringified to "<nil>" (observable as the SCM reference name of the built
record for a multi-branch pipeline) instead of being rejected. -/
theorem claim_c10_bare_record_branch_partiality :
    createBarePipelineRun pipeDemo
      { id := "3", state := "", result := "", branch := some (JsonVal.str "x") } =
      BareOut.panicked ∧
    (∃ pr, createBarePipelineRun pipeMB
        { id := "3", state := "", result := "", branch := some (JsonVal.obj [("other", "y")]) } =
        BareOut.ok pr ∧
      pr.spec.scm = some { refName := "<nil>", refType := "" }) := by
  constructor
  · decide
  · exact ⟨_, rfl, rfl⟩

/-- Counterexample to claim C4 as stated: under a store whose first write
attempt conflicts (and whose second would succeed), the status entry point
absorbs the conflict by retrying, but the metadata entry point surfaces the
conflict immediately — it does not retry at all, contradicting "both entry
points ... retry on version-conflict errors a bounded number of times ...
before surfacing the error". -/
theorem claim_c4_counterexample :
    (Reconciler.updateLabelsAndAnnotations envConfOnce clDemo prLabWant).2.1 =
      some GoError.conflict ∧
    (Reconciler.updateLabelsAndAnnotations envConfOnce clDemo prLabWant).1.metaAttempts = 1 ∧
    (Reconciler.updateStatus envConfOnce clDemo { emptyStatus with phase := RunningPhase }
      "demo" "run-1").2.1 = none :=
  ⟨by decide, by decide, by decide⟩

theorem retryOnConflict_second_ok {f : Cluster → Cluster × Option GoError × List TraceEv}
    {cl cl2 cl3 : Cluster} {t1 t2 : List TraceEv}
    (h1 : f cl = (cl2, some GoError.conflict, t1)) (h2 : f cl2 = (cl3, none, t2)) :
    retryOnConflict defaultRetrySteps f cl = (cl3, none, t1 ++ t2) := by
  have hr : retryOnConflict (4 + 1) f cl = (cl3, none, t1 ++ t2) := by
    unfold retryOnConflict
    rw [h1]
    dsimp only []
    unfold retryOnConflict
    rw [h2]
  exact hr

theorem retry_allConflict (env : Env) (d : PipelineRunStatus) (nsp name : String)
    (prStored : PipelineRun) (hall : ∀ k, env.statusConflict k = true)
    (hne : d ≠ prStored.status) :
    ∀ n cl, getRun cl nsp name = some prStored →
      retryOnConflict (n + 1) (updateStatusBody env d nsp name) cl =
        ({ cl with statusAttempts := cl.statusAttempts + (n + 1) }, some GoError.conflict, []) := by
  intro n
  induction n with
  | zero =>
    intro cl hget
    have hbody : updateStatusBody env d nsp name cl =
        ({ cl with statusAttempts := cl.statusAttempts + 1 }, some GoError.conflict, []) := by
      unfold updateStatusBody
      rw [hget]
      dsimp only []
      rw [if_neg hne]
      unfold updateStatusObj
      rw [hall cl.statusAttempts]
      simp
    unfold retryOnConflict
    rw [hbody]
  | succ m ih =>
    intro cl hget
    have hbody : updateStatusBody env d nsp name cl =
        ({ cl with statusAttempts := cl.statusAttempts + 1 }, some GoError.conflict, []) := by
      unfold updateStatusBody
      rw [hget]
      dsimp only []
      rw [if_neg hne]
      unfold updateStatusObj
      rw [hall cl.statusAttempts]
      simp
    unfold retryOnConflict
    rw [hbody]
    dsimp only []
    rw [ih { cl with statusAttempts := cl.statusAttempts + 1 } (by exact hget)]
    simp [Cluster.mk.injEq, Nat.add_assoc, Nat.add_comm, Nat.add_left_comm]

/-- Claim C4 (amended): both entry points of the conflict-safe mutator
re-fetch the latest record and treat "desired state already present" as a
no-op, issuing no write.  The status entry point retries version conflicts —
a single conflict is absorbed, and persistent conflicts are surfaced only
after the bounded budget of 5 attempts — but the metadata entry point makes
a single attempt: a version conflict there is surfaced immediately, with no
retry and no backoff. -/
theorem claim_c4_mutator_contract :
    (∀ env cl (pr prStored : PipelineRun),
      getRun cl pr.nsp pr.name = some prStored →
      mapOEq pr.labels prStored.labels = true →
      mapOEq pr.annotations prStored.annotations = true →
      Reconciler.updateLabelsAndAnnotations env cl pr = (cl, none, [])) ∧
    (∀ env cl (d : PipelineRunStatus) (nsp name : String) (prStored : PipelineRun),
      getRun cl nsp name = some prStored →
      d = prStored.status →
      Reconciler.updateStatus env cl d nsp name = (cl, none, [])) ∧
    (∀ env cl (d : PipelineRunStatus) (nsp name : String) (prStored : PipelineRun),
      getRun cl nsp name = some prStored →
      env.statusConflict cl.statusAttempts = true →
      env.statusConflict (cl.statusAttempts + 1) = false →
      d ≠ prStored.status →
      (Reconciler.updateStatus env cl d nsp name).2.1 = none) ∧
    (∀ env cl (d : PipelineRunStatus) (nsp name : String) (prStored : PipelineRun),
      getRun cl nsp name = some prStored →
      (∀ k, env.statusConflict k = true) →
      d ≠ prStored.status →
      (Reconciler.updateStatus env cl d nsp name).2.1 = some GoError.conflict ∧
      (Reconciler.updateStatus env cl d nsp name).1.statusAttempts = cl.statusAttempts + 5) ∧
    (∀ env cl (pr prStored : PipelineRun),
      getRun cl pr.nsp pr.name = some prStored →
      (mapOEq pr.labels prStored.labels && mapOEq pr.annotations prStored.annotations) = false →
      env.metaConflict cl.metaAttempts = true →
      Reconciler.updateLabelsAndAnnotations env cl pr =
        ({ cl with metaAttempts := cl.metaAttempts + 1 }, some GoError.conflict, [])) := by
  refine ⟨?_, ?_, ?_, ?_, ?_⟩
  · intro env cl pr prStored hget h1 h2
    unfold Reconciler.updateLabelsAndAnnotations
    rw [hget]
    dsimp only []
    rw [h1, h2]
    simp
  · intro env cl d nsp name prStored hget heq
    have hbody : updateStatusBody env d nsp name cl = (cl, none, []) := by
      unfold updateStatusBody
      rw [hget]
      dsimp only []
      rw [if_pos heq]
    unfold Reconciler.updateStatus
    exact retryOnConflict_first_ok hbody
  · intro env cl d nsp name prStored hget hc1 hc2 hne
    have hbody1 : updateStatusBody env d nsp name cl =
        ({ cl with statusAttempts := cl.statusAttempts + 1 }, some GoError.conflict, []) := by
      unfold updateStatusBody
      rw [hget]
      dsimp only []
      rw [if_neg hne]
      unfold updateStatusObj
      rw [hc1]
      simp
    have hbody2 : updateStatusBody env d nsp name
        { cl with statusAttempts := cl.statusAttempts + 1 } =
        ({ cl with runs := replaceRun cl.runs { prStored with status := d }, statusAttempts := cl.statusAttempts + 1 + 1 }, none, [TraceEv.statusWrite]) := by
      unfold updateStatusBody
      rw [show getRun { cl with statusAttempts := cl.statusAttempts + 1 } nsp name =
        some prStored from hget]
      dsimp only []
      rw [if_neg hne]
      unfold updateStatusObj
      dsimp only []
      rw [hc2]
      simp
    unfold Reconciler.updateStatus
    rw [retryOnConflict_second_ok hbody1 hbody2]
  · intro env cl d nsp name prStored hget hall hne
    have h := retry_allConflict env d nsp name prStored hall hne 4 cl hget
    unfold Reconciler.updateStatus
    have hsteps : defaultRetrySteps = 4 + 1 := rfl
    rw [hsteps, h]
    exact ⟨rfl, rfl⟩
  · intro env cl pr prStored hget hcond hconf
    unfold Reconciler.updateLabelsAndAnnotations
    rw [hget]
    dsimp only []
    rw [hcond]
    simp only [Bool.false_eq_true, if_false]
    unfold updateRunObj
    rw [hconf]
    simp

/-- Witness for the amended C4, exercising each clause of the contract at a
concrete input: both no-op skips, the absorbed single conflict, the
surfacing after exactly 5 conflicted attempts, and the metadata path's
immediate single-attempt surfacing. -/
theorem claim_c4_mutator_contract_witness :
    Reconciler.updateLabelsAndAnnotations envHappy clDemo prDemo = (clDemo, none, []) ∧
    Reconciler.updateStatus envHappy clDemo prDemo.status "demo" "run-1" = (clDemo, none, []) ∧
    (Reconciler.updateStatus envConfOnce clDemo { emptyStatus with phase := RunningPhase }
      "demo" "run-1").2.1 = none ∧
    ((Reconciler.updateStatus envConfAlways clDemo { emptyStatus with phase := RunningPhase }
      "demo" "run-1").2.1 = some GoError.conflict ∧
    (Reconciler.updateStatus envConfAlways clDemo { emptyStatus with phase := RunningPhase }
      "demo" "run-1").1.statusAttempts = 0 + 5) ∧
    Reconciler.updateLabelsAndAnnotations envConfOnce clDemo prLabWant =
      ({ clDemo with metaAttempts := 0 + 1 }, some GoError.conflict, []) :=
  ⟨claim_c4_mutator_contract.1 envHappy clDemo prDemo prDemo (by decide) (by decide) (by decide),
   claim_c4_mutator_contract.2.1 envHappy clDemo prDemo.status "demo" "run-1" prDemo
     (by decide) (by decide),
   claim_c4_mutator_contract.2.2.1 envConfOnce clDemo
     { emptyStatus with phase := RunningPhase } "demo" "run-1" prDemo
     (by decide) rfl rfl (by decide),
   claim_c4_mutator_contract.2.2.2.1 envConfAlways clDemo
     { emptyStatus with phase := RunningPhase } "demo" "run-1" prDemo
     (by decide) (fun _ => rfl) (by decide),
   claim_c4_mutator_contract.2.2.2.2 envConfOnce clDemo prLabWant prDemo
     (by decide) (by decide) rfl⟩

/-- Witness for the amended C9 at a concrete input. -/
theorem claim_c9_amended_witness :
    Reconciler.Reconcile envHappy clMissX "demo" "run-9" =
      (some (clMissX, ⟨0, none⟩), []) :=
  claim_c9_amended envHappy clMissX "demo" "run-9" prMissX
    { kind := "Pipeline", name := "missing", nsp := "demo" }
    (by decide) (by decide) (by decide) (by decide) (by decide) (by decide) (by decide)

theorem findPipeline_replace {ps : List Pipeline} {nsp name : String} {p0 : Pipeline}
    (hfind : findPipeline ps nsp name = some p0) (p : Pipeline)
    (hns : p.nsp = nsp) (hname : p.name = name) :
    findPipeline (replacePipeline ps p) nsp name = some p := by
  induction ps with
  | nil => simp [findPipeline] at hfind
  | cons r rest ih =>
    simp only [replacePipeline, List.map_cons]
    by_cases hmatch : (r.nsp == nsp && r.name == name) = true
    · have hm2 : (r.nsp == p.nsp && r.name == p.name) = true := by
        rw [hns, hname]
        exact hmatch
      have hp : (p.nsp == nsp && p.name == name) = true := by
        rw [hns, hname]
        simp
      rw [if_pos hm2]
      unfold findPipeline
      exact @List.find?_cons_of_pos _ (fun q => q.nsp == nsp && q.name == name) p _ hp
    · have hm2 : ¬(r.nsp == p.nsp && r.name == p.name) = true := by
        rw [hns, hname]
        exact hmatch
      rw [if_neg hm2]
      unfold findPipeline at hfind ⊢
      rw [@List.find?_cons_of_neg _ (fun q => q.nsp == nsp && q.name == name) r _ hmatch] at hfind
      rw [@List.find?_cons_of_neg _ (fun q => q.nsp == nsp && q.name == name) r _ hmatch]
      exact ih hfind

theorem olookup_map_erase (om : Option StrMap) (k : String) :
    olookup (om.map (fun m => mapErase m k)) k = none := by
  cases om with
  | none => rfl
  | some m =>
    simp only [Option.map_some', olookup, Option.some_bind]
    exact mapLookup_erase_self m k

/-- Building a bare record for a branchless remote run of a single-branch
pipeline always succeeds, and the record carries the remote identifier. -/
theorem createBare_ok (pipeline : Pipeline) (jr : JobRun)
    (htype : (pipeline.spec.pType == MultiBranchPipelineType) = false)
    (hbr : jr.branch = none) :
    ∃ prn, createBarePipelineRun pipeline jr = BareOut.ok prn ∧
      prn.getPipelineRunID = some jr.id ∧ prn.name = "" := by
  unfold createBarePipelineRun
  rw [hbr]
  dsimp only []
  unfold CreateScm
  rw [htype]
  simp only [Bool.false_eq_true, if_false]
  refine ⟨_, rfl, ?_, rfl⟩
  unfold PipelineRun.getPipelineRunID
  dsimp only [CreatePipelineRun]
  simpa [olookup] using
    mapLookup_insert_self (((CreatePipelineRun pipeline none none).annotations).getD [])
      JenkinsPipelineRunIDKey jr.id

theorem syncCreateLoop_spec (pipeline : Pipeline) (container : List String)
    (htype : (pipeline.spec.pType == MultiBranchPipelineType) = false) :
    ∀ (jruns : List JobRun) (cl : Cluster) (created : Nat),
      (∀ jr ∈ jruns, jr.branch = none) →
      ∃ cl2 tc, syncCreateLoop pipeline container jruns cl created =
          some (cl2, created + (jruns.filter (fun jr => !container.contains jr.id)).length, tc) ∧
        cl2.runs.length = cl.runs.length +
          (jruns.filter (fun jr => !container.contains jr.id)).length ∧
        (∀ r, r ∈ cl.runs → r ∈ cl2.runs) ∧
        (∀ jr ∈ jruns, container.contains jr.id = false →
          ∃ r, r ∈ cl2.runs ∧ r.getPipelineRunID = some jr.id) ∧
        cl2.pipelines = cl.pipelines ∧
        cl2.pipeAttempts = cl.pipeAttempts := by
  intro jruns
  induction jruns with
  | nil =>
    intro cl created _
    exact ⟨cl, [], by simp [syncCreateLoop], by simp, fun r hr => hr, by simp, rfl, rfl⟩
  | cons jr rest ih =>
    intro cl created hbr
    by_cases hc : container.contains jr.id = true
    · obtain ⟨cl2, tc, hloop, hlen, hpres, hcov, hpips, hpa⟩ :=
        ih cl created (fun x hx => hbr x (List.mem_cons_of_mem _ hx))
      refine ⟨cl2, tc, ?_, ?_, hpres, ?_, hpips, hpa⟩
      · unfold syncCreateLoop
        rw [if_pos hc, hloop]
        have : (List.filter (fun x => !container.contains x.id) (jr :: rest)) =
            List.filter (fun x => !container.contains x.id) rest := by
          rw [List.filter_cons, hc]
          simp only [Bool.not_true, Bool.false_eq_true, if_false]
        rw [this]
      · have : (List.filter (fun x => !container.contains x.id) (jr :: rest)) =
            List.filter (fun x => !container.contains x.id) rest := by
          rw [List.filter_cons, hc]
          simp only [Bool.not_true, Bool.false_eq_true, if_false]
        rw [this]
        exact hlen
      · intro x hx hxc
        cases hx with
        | head =>
          rw [hc] at hxc
          exact Bool.noConfusion hxc
        | tail _ hx2 => exact hcov x hx2 hxc
    · have hcf : container.contains jr.id = false := by
        rw [← Bool.not_eq_true]
        exact hc
      obtain ⟨prn, hbare, hid, hpname⟩ :=
        createBare_ok pipeline jr htype (hbr jr (List.mem_cons_self _ _))
      obtain ⟨cl2, tc, hloop, hlen, hpres, hcov, hpips, hpa⟩ :=
        ih (clusterCreate cl prn).1 (created + 1)
          (fun x hx => hbr x (List.mem_cons_of_mem _ hx))
      have hnamed : ((clusterCreate cl prn).2).getPipelineRunID = some jr.id := by
        unfold clusterCreate
        dsimp only []
        rw [hpname]
        simp only [beq_self_eq_true, if_true]
        exact hid
      have hmemNamed : (clusterCreate cl prn).2 ∈ ((clusterCreate cl prn).1).runs := by
        unfold clusterCreate
        dsimp only []
        simp
      refine ⟨cl2, TraceEv.createWrite :: tc, ?_, ?_, ?_, ?_, ?_, ?_⟩
      · unfold syncCreateLoop
        rw [if_neg hc, hbare]
        dsimp only []
        rw [hloop]
        have : (List.filter (fun x => !container.contains x.id) (jr :: rest)).length =
            (List.filter (fun x => !container.contains x.id) rest).length + 1 := by
          rw [List.filter_cons, hcf]
          simp only [Bool.not_false, if_true, List.length_cons]
        rw [this]
        have harith : created + 1 + (List.filter (fun x => !container.contains x.id) rest).length =
            created + ((List.filter (fun x => !container.contains x.id) rest).length + 1) := by
          omega
        rw [harith]
      · have : (List.filter (fun x => !container.contains x.id) (jr :: rest)).length =
            (List.filter (fun x => !container.contains x.id) rest).length + 1 := by
          rw [List.filter_cons, hcf]
          simp only [Bool.not_false, if_true, List.length_cons]
        rw [this]
        have hcreateLen : ((clusterCreate cl prn).1).runs.length = cl.runs.length + 1 := by
          unfold clusterCreate
          dsimp only []
          simp
        omega
      · intro r hr
        apply hpres
        unfold clusterCreate
        dsimp only []
        simp [hr]
      · intro x hx hxc
        cases hx with
        | head =>
          exact ⟨(clusterCreate cl prn).2, hpres _ hmemNamed, hnamed⟩
        | tail _ hx2 => exact hcov x hx2 hxc
      · rw [hpips]
        unfold clusterCreate
        dsimp only []
      · rw [hpa]
        unfold clusterCreate
        dsimp only []

theorem matched_filter_length (jruns : List JobRun) (container : List String)
    (hnodupJ : (jruns.map JobRun.id).Nodup)
    (hnodupC : container.Nodup)
    (hsub : ∀ s ∈ container, s ∈ jruns.map JobRun.id) :
    (jruns.filter (fun jr => container.contains jr.id)).length = container.length := by
  have h1 : ((jruns.map JobRun.id).filter (fun s => container.contains s)) =
      (jruns.filter (fun jr => container.contains jr.id)).map JobRun.id := by
    rw [List.filter_map]
    rfl
  have hperm : ((jruns.map JobRun.id).filter (fun s => container.contains s)).Perm container := by
    apply (List.perm_ext_iff_of_nodup (List.Nodup.filter _ hnodupJ) hnodupC).mpr
    intro a
    constructor
    · intro ha
      exact List.elem_iff.mp (List.mem_filter.mp ha).2
    · intro ha
      exact List.mem_filter.mpr ⟨hsub a ha, List.elem_iff.mpr ha⟩
  have h2 := hperm.length_eq
  rw [h1, List.length_map] at h2
  exact h2

/-- The marker-removal pass with no store conflicts: the marker annotation
ends up absent, without touching the run records. -/
theorem syncSucc_spec (env : Env) (cl : Cluster) (nsp name : String) (pipeline : Pipeline)
    (hget : getPipeline cl nsp name = some pipeline)
    (hnoPC : env.pipeConflict cl.pipeAttempts = false) :
    ∃ cl2 tc, SyncReconciler.synchronizedSuccessfully env cl nsp name = (cl2, none, tc) ∧
      (getPipeline cl2 nsp name).bind
        (fun p => olookup p.annotations PipelineRequestToSyncRunsAnnoKey) = none ∧
      cl2.runs = cl.runs := by
  have hkey := findPipeline_some_key hget
  by_cases hmark : (olookup pipeline.annotations PipelineRequestToSyncRunsAnnoKey).isNone = true
  · have hbody : syncSuccBody env nsp name cl = (cl, none, []) := by
      unfold syncSuccBody
      rw [hget]
      dsimp only []
      rw [if_pos hmark]
    refine ⟨cl, [], ?_, ?_, rfl⟩
    · unfold SyncReconciler.synchronizedSuccessfully
      exact retryOnConflict_first_ok hbody
    · rw [hget, Option.some_bind]
      simpa using hmark
  · have hbody : syncSuccBody env nsp name cl =
        ({ cl with pipelines := replacePipeline cl.pipelines { pipeline with annotations := pipeline.annotations.map (fun m => mapErase m PipelineRequestToSyncRunsAnnoKey) }, pipeAttempts := cl.pipeAttempts + 1 }, none, [TraceEv.metaWrite]) := by
      unfold syncSuccBody
      rw [hget]
      dsimp only []
      rw [if_neg hmark]
      unfold updatePipelineObj
      rw [hnoPC]
      simp
    refine ⟨{ cl with pipelines := replacePipeline cl.pipelines { pipeline with annotations := pipeline.annotations.map (fun m => mapErase m PipelineRequestToSyncRunsAnnoKey) }, pipeAttempts := cl.pipeAttempts + 1 }, [TraceEv.metaWrite], ?_, ?_, rfl⟩
    · unfold SyncReconciler.synchronizedSuccessfully
      exact retryOnConflict_first_ok hbody
    · have hrep : getPipeline { cl with pipelines := replacePipeline cl.pipelines { pipeline with annotations := pipeline.annotations.map (fun m => mapErase m PipelineRequestToSyncRunsAnnoKey) }, pipeAttempts := cl.pipeAttempts + 1 } nsp name = some { pipeline with annotations := pipeline.annotations.map (fun m => mapErase m PipelineRequestToSyncRunsAnnoKey) } := by
        exact findPipeline_replace hget _ (by exact hkey.1) (by exact hkey.2)
      rw [hrep, Option.some_bind]
      exact olookup_map_erase pipeline.annotations PipelineRequestToSyncRunsAnnoKey

/-- Claim C2: one synchronizer pass over a pipeline with N distinct remote
runs and M local records already matched by external run identifier creates
exactly N−M new bare records, each already carrying the matching remote
identifier annotation, leaves every remote run with a matching local
record, and removes the pipeline's "needs sync" marker. -/
theorem claim_c2_sync_convergence (env : Env) (cl : Cluster) (reqNs reqName : String)
    (pipeline : Pipeline) (jruns : List JobRun)
    (hpipe : getPipeline cl reqNs reqName = some pipeline)
    (hlist : env.listRuns pipeline.name pipeline.nsp = Except.ok jruns)
    (htype : (pipeline.spec.pType == MultiBranchPipelineType) = false)
    (hbr : ∀ jr ∈ jruns, jr.branch = none)
    (hnodupJ : (jruns.map JobRun.id).Nodup)
    (hnodupC : (syncContainer cl pipeline).Nodup)
    (hmatchedSome : ∀ pr ∈ syncLocalRuns cl pipeline, (pr.getPipelineRunID).isSome = true)
    (hmatched : ∀ s ∈ syncContainer cl pipeline, s ∈ jruns.map JobRun.id)
    (hnoPC : ∀ k, env.pipeConflict k = false) :
    ∃ cl2,
      (SyncReconciler.Reconcile env cl reqNs reqName).1 =
        some (cl2, ⟨0, none⟩, jruns.length - (syncLocalRuns cl pipeline).length) ∧
      cl2.runs.length = cl.runs.length +
        (jruns.length - (syncLocalRuns cl pipeline).length) ∧
      (∀ jr ∈ jruns, ∃ r, r ∈ cl2.runs ∧ r.getPipelineRunID = some jr.id) ∧
      (getPipeline cl2 reqNs reqName).bind
        (fun p => olookup p.annotations PipelineRequestToSyncRunsAnnoKey) = none := by
  have hM : (jruns.filter (fun jr => (syncContainer cl pipeline).contains jr.id)).length =
      (syncLocalRuns cl pipeline).length := by
    have := matched_filter_length jruns (syncContainer cl pipeline) hnodupJ hnodupC hmatched
    rw [this]
    unfold syncContainer
    exact List.length_map _ _
  have hNM : (jruns.filter (fun jr => !(syncContainer cl pipeline).contains jr.id)).length =
      jruns.length - (syncLocalRuns cl pipeline).length := by
    have hsplit : jruns.length =
        (jruns.filter (fun jr => (syncContainer cl pipeline).contains jr.id)).length +
        (jruns.filter (fun jr => !(syncContainer cl pipeline).contains jr.id)).length := by
      rw [← List.countP_eq_length_filter, ← List.countP_eq_length_filter]
      simpa using List.length_eq_countP_add_countP
        (fun jr => (syncContainer cl pipeline).contains jr.id) jruns
    omega
  obtain ⟨cl2, tc, hloop, hlen, hpres, hcov, hpips, hpa⟩ :=
    syncCreateLoop_spec pipeline (syncContainer cl pipeline) htype jruns cl 0 hbr
  have hget2 : getPipeline cl2 reqNs reqName = some pipeline := by
    unfold getPipeline
    rw [hpips]
    exact hpipe
  obtain ⟨cl3, tc2, hsync, hmarker, hruns3⟩ :=
    syncSucc_spec env cl2 reqNs reqName pipeline hget2 (by
      rw [hpa]
      exact hnoPC cl.pipeAttempts)
  refine ⟨cl3, ?_, ?_, ?_, ?_⟩
  · unfold SyncReconciler.Reconcile
    rw [hpipe]
    dsimp only []
    rw [hlist]
    dsimp only []
    rw [hloop]
    dsimp only []
    rw [hsync]
    dsimp only []
    rw [hNM]
    simp
  · rw [hruns3, hlen, hNM]
  · intro jr hjr
    by_cases hc : (syncContainer cl pipeline).contains jr.id = true
    · have hmem : jr.id ∈ syncContainer cl pipeline := List.elem_iff.mp hc
      unfold syncContainer at hmem
      obtain ⟨pr, hprmem, hpreq⟩ := List.mem_map.mp hmem
      have hsome := hmatchedSome pr hprmem
      obtain ⟨v, hv⟩ := Option.isSome_iff_exists.mp hsome
      have hid : pr.getPipelineRunID = some jr.id := by
        rw [hv] at hpreq ⊢
        simp at hpreq
        rw [hpreq]
      have hmemRuns : pr ∈ cl.runs := by
        unfold syncLocalRuns at hprmem
        exact (List.mem_filter.mp hprmem).1
      refine ⟨pr, ?_, hid⟩
      rw [hruns3]
      exact hpres pr hmemRuns
    · have hcf : (syncContainer cl pipeline).contains jr.id = false := by
        rw [← Bool.not_eq_true]
        exact hc
      obtain ⟨r, hr1, hr2⟩ := hcov jr hjr hcf
      refine ⟨r, ?_, hr2⟩
      rw [hruns3]
      exact hr1
  · exact hmarker

/-- Witness for C2 at a concrete store: two remote runs, one matched local
record — one new record gets created with identifier "2", every remote run
is covered, and the marker is gone. -/
theorem claim_c2_sync_convergence_witness :
    ∃ cl2,
      (SyncReconciler.Reconcile envSync clSync "demo" "pipeline-a").1 =
        some (cl2, ⟨0, none⟩, [jrOne, jrTwo].length - (syncLocalRuns clSync pipeSync).length) ∧
      cl2.runs.length = clSync.runs.length +
        ([jrOne, jrTwo].length - (syncLocalRuns clSync pipeSync).length) ∧
      (∀ jr ∈ [jrOne, jrTwo], ∃ r, r ∈ cl2.runs ∧ r.getPipelineRunID = some jr.id) ∧
      (getPipeline cl2 "demo" "pipeline-a").bind
        (fun p => olookup p.annotations PipelineRequestToSyncRunsAnnoKey) = none :=
  claim_c2_sync_convergence envSync clSync "demo" "pipeline-a" pipeSync [jrOne, jrTwo]
    (by decide) rfl (by decide) (by decide) (by decide) (by decide) (by decide) (by decide)
    (fun _ => rfl)

end KsDevops
